import Mathlib

/-
Shallow embedding of the rustdmg emulator core (jardiacaj/rustdmg).

Machine integers are modelled as `Nat` with explicit reduction modulo
2^8 / 2^16 at the points where the Rust types (`u8` / `u16`) truncate.
`cycle_count` (a `u64` in the source) is modelled as an unbounded `Nat`:
the counter only ever grows by at most 24 per instruction, so the
wrap-around at 2^64 is unreachable in any run the claims talk about.
Rust panics (unimplemented opcodes, invalid bus addresses, writes to the
boot ROM, out-of-range indexing) are modelled by `Option`: a panicking
path returns `none`.

Sources: src/cpu/register.rs, src/ppu/mod.rs, src/bus/{io_ports,ram_bank,
cartridge}.rs, src/memory/bootrom.rs, src/cpu/{mod,instruction}.rs.
The repository snapshot mixes several revisions: the bus module revision
that matches `io_ports.rs` (which says the 0xFF50 happy case is
"HANDLED BY BUS") is not present; that one interception is modelled from
the spec and marked as such below.  Everything else is translated from
the source files.
-/

/-- Flag register bits, from `bitflags!` in src/cpu/register.rs:
Z = 0b10000000, N = 0b01000000, H = 0b00100000, C = 0b00010000. -/
structure Flags where
  bits : Nat
deriving DecidableEq, Repr

def Flags.Z : Nat := 0x80

def Flags.N : Nat := 0x40

def Flags.H : Nat := 0x20

def Flags.C : Nat := 0x10

/-- bitflags `insert`: set the bits of the mask. -/
def Flags.insert (f : Flags) (mask : Nat) : Flags := ⟨f.bits ||| mask⟩

/-- bitflags `remove`: clear the bits of the mask (`bits &= !mask` on u8). -/
def Flags.remove (f : Flags) (mask : Nat) : Flags := ⟨f.bits &&& (255 ^^^ mask)⟩

/-- bitflags `contains`: all bits of the mask are present. -/
def Flags.contains (f : Flags) (mask : Nat) : Bool := f.bits &&& mask == mask

/-- bitflags `set`: insert or remove depending on the boolean. -/
def Flags.set (f : Flags) (mask : Nat) (value : Bool) : Flags :=
  if value then f.insert mask else f.remove mask

/-- `Flags::clear` from src/cpu/register.rs: `self.bits = 0`. -/
def Flags.clear (_f : Flags) : Flags := ⟨0⟩

/-- `Register16bit` from src/cpu/register.rs. -/
structure Register16bit where
  value : Nat
deriving DecidableEq, Repr

def Register16bit.new : Register16bit := ⟨0⟩

def Register16bit.read (r : Register16bit) : Nat := r.value

def Register16bit.write (_r : Register16bit) (value : Nat) : Register16bit :=
  ⟨value % 65536⟩

/-- `inc`: `self.value += 1`.  Modelled with the release-mode (wrapping)
semantics of the `u16` addition. -/
def Register16bit.inc (r : Register16bit) : Register16bit :=
  ⟨(r.value + 1) % 65536⟩

/-- `overflowing_add`: `self.value = self.value.overflowing_add(value).0`. -/
def Register16bit.overflowing_add (r : Register16bit) (value : Nat) : Register16bit :=
  ⟨(r.value + value) % 65536⟩

def Register16bit.read_lower (r : Register16bit) : Nat := r.value % 256

def Register16bit.write_lower (r : Register16bit) (value : Nat) : Register16bit :=
  ⟨(r.value &&& 0xFF00) + value % 256⟩

def Register16bit.read_higher (r : Register16bit) : Nat := r.value >>> 8

def Register16bit.write_higher (r : Register16bit) (value : Nat) : Register16bit :=
  ⟨(r.value &&& 0x00FF) + (value % 256) <<< 8⟩

/-- `AFRegister` from src/cpu/register.rs: accumulator plus flag byte.
Note that `write` and `write_lower` store the low byte into the flag
register verbatim; no masking of the low nibble happens anywhere. -/
structure AFRegister where
  a : Nat
  flags : Flags
deriving DecidableEq, Repr

def AFRegister.new : AFRegister := ⟨0, ⟨0⟩⟩

def AFRegister.read (r : AFRegister) : Nat := (r.a <<< 8) + r.flags.bits

def AFRegister.write (_r : AFRegister) (value : Nat) : AFRegister :=
  ⟨(value >>> 8) % 256, ⟨value % 256⟩⟩

def AFRegister.read_lower (r : AFRegister) : Nat := r.flags.bits

def AFRegister.write_lower (r : AFRegister) (value : Nat) : AFRegister :=
  { r with flags := ⟨value % 256⟩ }

def AFRegister.read_higher (r : AFRegister) : Nat := r.a

def AFRegister.write_higher (r : AFRegister) (value : Nat) : AFRegister :=
  { r with a := value % 256 }

def AFRegister.read_a (r : AFRegister) : Nat := r.read_higher

def AFRegister.write_a (r : AFRegister) (value : Nat) : AFRegister :=
  r.write_higher value

/-- PPU mode, from src/ppu/mod.rs. -/
inductive PpuMode
  | OAM
  | PixelTransfer
  | HBlank
  | VBlank
deriving DecidableEq, Repr, BEq

/-- Mode durations: OAM 20*4, pixel transfer 43*4, H-blank 51*4,
V-blank 10 lines of 456 cycles. -/
def mode_duration (mode : PpuMode) : Nat :=
  match mode with
  | .OAM => 20 * 4
  | .PixelTransfer => 43 * 4
  | .HBlank => 51 * 4
  | .VBlank => 10 * (20 * 4 + 43 * 4 + 51 * 4)

def next_mode (mode : PpuMode) (current_line : Nat) : PpuMode :=
  match mode with
  | .OAM => .PixelTransfer
  | .PixelTransfer => .HBlank
  | .HBlank => if current_line < 144 then .OAM else .VBlank
  | .VBlank => .OAM

/-- PPU state from src/ppu/mod.rs.  The `bg_scroll_y` field is the one
accessed by `io_ports.rs` (reads/writes of 0xFF42); it is absent from the
older `ppu/mod.rs` snapshot in the tree but required by `io_ports.rs`. -/
structure PPU where
  cycle_count : Nat
  current_line : Nat
  current_mode : PpuMode
  cycles_in_current_mode : Nat
  cycles_in_current_line : Nat
  bg_scroll_y : Nat
deriving DecidableEq, Repr

def PPU.new : PPU :=
  { cycle_count := 0
    current_line := 0
    current_mode := .OAM
    cycles_in_current_mode := 0
    cycles_in_current_line := 0
    bg_scroll_y := 0 }

/-- `PPU::cycle` from src/ppu/mod.rs: bump the three counters, end the
line at 456 cycles (incrementing and wrapping `current_line`), then make
the mode transition if the mode's duration is reached.  The line update
happens before the mode transition, so the `HBlank` decision sees the
incremented line. -/
def PPU.cycle (p : PPU) : PPU :=
  let p := { p with
    cycle_count := p.cycle_count + 1
    cycles_in_current_mode := p.cycles_in_current_mode + 1
    cycles_in_current_line := p.cycles_in_current_line + 1 }
  let duration := mode_duration p.current_mode
  let p :=
    if p.cycles_in_current_line = 456 then
      let line := (p.current_line + 1) % 256
      { p with
        cycles_in_current_line := 0
        current_line := if 144 + 10 ≤ line then 0 else line }
    else p
  if 0 < duration ∧ duration ≤ p.cycles_in_current_mode then
    { p with
      current_mode := next_mode p.current_mode p.current_line
      cycles_in_current_mode := 0 }
  else p

def PPU.cycleN : Nat → PPU → PPU
  | 0, p => p
  | n + 1, p => PPU.cycleN n p.cycle

/-- A `Vec<u8>`, modelled as its length together with its contents as a
function (index ↦ byte).  Indexing panics outside `0..length`, exactly
as `Vec` indexing does; the functional representation is chosen over a
list only so that reads and writes evaluate without deep recursion. -/
structure ByteVec where
  length : Nat
  elem : Nat → Nat

/-- Checked read, `v[i]`: `none` is the out-of-bounds panic. -/
def ByteVec.get? (v : ByteVec) (i : Nat) : Option Nat :=
  if i < v.length then some (v.elem i) else none

/-- Checked write, `v[i] = x`: `none` is the out-of-bounds panic.  The
stored value is reduced mod 256 (it crosses a `u8` boundary). -/
def ByteVec.set? (v : ByteVec) (i x : Nat) : Option ByteVec :=
  if i < v.length then
    some { v with elem := fun j => if j = i then x % 256 else v.elem j }
  else none

/-- `vec![b0, b1, ...]` for the byte lists the tests pass around. -/
def ByteVec.ofList (l : List Nat) : ByteVec :=
  ⟨l.length, fun i => ((l.get? i).getD 0) % 256⟩

/-- `vec![0; n]`. -/
def ByteVec.zeros (n : Nat) : ByteVec := ⟨n, fun _ => 0⟩

/-- `BootROM` from src/memory/bootrom.rs.  `write` panics. -/
structure BootROM where
  data : ByteVec

def BootROM.read (b : BootROM) (address : Nat) : Option Nat :=
  b.data.get? address

/-- `RomBank` from src/bus/cartridge.rs. -/
structure RomBank where
  bank_number : Nat
  data : ByteVec

def RomBank.global_address_to_local_address (b : RomBank) (address : Nat) : Nat :=
  if b.bank_number = 0 then address else address - 0x4000

def RomBank.read (b : RomBank) (address : Nat) : Option Nat :=
  b.data.get? (b.global_address_to_local_address address)

def RomBank.write (b : RomBank) (address value : Nat) : Option RomBank :=
  (b.data.set? (b.global_address_to_local_address address) value).map fun d =>
    { b with data := d }

/-- `Cartridge` from src/bus/cartridge.rs (name and raw blob omitted:
no claim mentions them). -/
structure Cartridge where
  rom_banks : List RomBank

/-- `Cartridge::new_dummy_cartridge(data)`: a single bank 0 holding the
given bytes. -/
def Cartridge.new_dummy_cartridge (data : ByteVec) : Cartridge :=
  ⟨[⟨0, data⟩]⟩

/-- `RAMBank` from src/bus/ram_bank.rs. -/
structure RAMBank where
  data : ByteVec
  base_address : Nat

def RAMBank.read (rb : RAMBank) (address : Nat) : Option Nat :=
  rb.data.get? (address - rb.base_address)

def RAMBank.write (rb : RAMBank) (address value : Nat) : Option RAMBank :=
  (rb.data.set? (address - rb.base_address) value).map fun d => { rb with data := d }

/-- `IOPorts` backing store from src/bus/io_ports.rs (the PPU the handler
needs lives on the Bus; see §9 of the spec on the ownership shape). -/
structure IOPorts where
  data : ByteVec

def IOPorts.store (io : IOPorts) (address value : Nat) : Option IOPorts :=
  (io.data.set? (address - 0xFF00) value).map fun d => { io with data := d }

/-- The Bus aggregate from src/bus/mod.rs. -/
structure Bus where
  boot_rom_active : Bool
  boot_rom : BootROM
  cartridge : Cartridge
  work_ram : RAMBank
  video_ram : RAMBank
  io_ports : IOPorts
  high_ram : RAMBank
  ppu : PPU

/-- `IOPorts::read` from src/bus/io_ports.rs: 0xFF44 returns the PPU's
`current_line`, 0xFF42 returns `bg_scroll_y`, everything else panics. -/
def Bus.ioRead (b : Bus) (address : Nat) : Option Nat :=
  if address = 0xFF44 then some b.ppu.current_line
  else if address = 0xFF42 then some b.ppu.bg_scroll_y
  else none

/-- `IOPorts::write` from src/bus/io_ports.rs: the listed sound ports,
0xFF47 and 0xFF40 are accepted as stubs; 0xFF42 writes the PPU's
`bg_scroll_y`; 0xFF50 panics unless the value is 1 (the happy case is
handled by the bus); everything else panics.  On the accepted paths the
byte is then stored in the ports' backing array. -/
def Bus.ioWrite (b : Bus) (address value : Nat) : Option Bus :=
  let accepted : Option Bus :=
    if address = 0xFF24 ∨ address = 0xFF26 ∨ address = 0xFF11 ∨ address = 0xFF12 ∨
        address = 0xFF13 ∨ address = 0xFF14 ∨ address = 0xFF25 ∨ address = 0xFF47 then
      some b
    else if address = 0xFF42 then
      some { b with ppu := { b.ppu with bg_scroll_y := value % 256 } }
    else if address = 0xFF40 then some b
    else if address = 0xFF50 then (if value = 1 then some b else none)
    else none
  accepted.bind fun b2 =>
    (b2.io_ports.store address value).map fun io => { b2 with io_ports := io }

/-- `Bus::get_memory_zone_from_address` + `Bus::read`: dispatch a read.
Boot ROM (when active) covers addresses below 0x100; cartridge bank 0
covers up to 0x4000; 0x4000..0x8000 panics (no banking); video RAM up to
0xA000; 0xA000..0xC000 panics (no external RAM); work RAM up to 0xD000
(one 0x1000-byte bank); I/O ports 0xFF00..0xFF80; high RAM
0xFF80..0xFF80+0x7F; anything else panics. -/
def Bus.read (b : Bus) (address : Nat) : Option Nat :=
  if b.boot_rom_active = true ∧ address < 0x100 then b.boot_rom.read address
  else if address < 0x4000 then
    (b.cartridge.rom_banks.get? 0).bind fun bank => bank.read address
  else if address < 0x8000 then none
  else if address < 0xA000 then b.video_ram.read address
  else if address < 0xC000 then none
  else if address < 0xD000 then b.work_ram.read address
  else if 0xFF00 ≤ address ∧ address < 0xFF00 + 0x80 then b.ioRead address
  else if 0xFF80 ≤ address ∧ address < 0xFF80 + 0x7F then b.high_ram.read address
  else none

/-- `Bus::write`.  The dispatch is `get_memory_zone_from_address` as in
`Bus.read`; a write that reaches the boot ROM panics.

Modelled from the spec: the revision of `src/bus/mod.rs` that matches
`src/bus/io_ports.rs` is not in the tree, and it is that revision's
`Bus::write` which handles the 0xFF50 happy case (`io_ports.rs` line 50:
"HAPPY CASE HANDLED BY BUS").  Per the spec (§4.2 and §9), the bus
inspects every write and, on address 0xFF50 with value 1, permanently
deactivates the boot ROM overlay before dispatching. -/
def Bus.write_dispatch (b : Bus) (address value : Nat) : Option Bus :=
  if b.boot_rom_active = true ∧ address < 0x100 then none
  else if address < 0x4000 then
    (b.cartridge.rom_banks.get? 0).bind fun bank =>
      (bank.write address value).map fun bank2 =>
        { b with cartridge := ⟨b.cartridge.rom_banks.set 0 bank2⟩ }
  else if address < 0x8000 then none
  else if address < 0xA000 then
    (b.video_ram.write address value).map fun z => { b with video_ram := z }
  else if address < 0xC000 then none
  else if address < 0xD000 then
    (b.work_ram.write address value).map fun z => { b with work_ram := z }
  else if 0xFF00 ≤ address ∧ address < 0xFF00 + 0x80 then b.ioWrite address value
  else if 0xFF80 ≤ address ∧ address < 0xFF80 + 0x7F then
    (b.high_ram.write address value).map fun z => { b with high_ram := z }
  else none

/-- `Bus::write` = the 0xFF50 interception followed by
`get_memory_zone_from_address(address).write(address, value)`. -/
def Bus.write (b : Bus) (address value : Nat) : Option Bus :=
  let b := if address = 0xFF50 ∧ value = 1 then { b with boot_rom_active := false } else b
  b.write_dispatch address value

/-- `Bus::cycle`: tick the PPU once. -/
def Bus.cycle (b : Bus) : Bus := { b with ppu := b.ppu.cycle }

def Bus.cycleN : Nat → Bus → Bus
  | 0, b => b
  | n + 1, b => Bus.cycleN n b.cycle

/-- `Bus::new_from_vecs` (revision matching `io_ports.rs`): fresh RAM
banks, active boot ROM, dummy cartridge holding the given bank-0 bytes. -/
def Bus.new_from_vecs (boot_rom_data cart_rom_bank_zero_data : List Nat) : Bus :=
  { boot_rom_active := true
    boot_rom := ⟨ByteVec.ofList boot_rom_data⟩
    cartridge := Cartridge.new_dummy_cartridge (ByteVec.ofList cart_rom_bank_zero_data)
    work_ram := ⟨ByteVec.zeros 0x1000, 0xC000⟩
    video_ram := ⟨ByteVec.zeros 0x2000, 0x8000⟩
    io_ports := ⟨ByteVec.zeros 0x80⟩
    high_ram := ⟨ByteVec.zeros 0x7F, 0xFF80⟩
    ppu := PPU.new }

/-- The CPU state from src/cpu/mod.rs (the static instruction vectors are
modelled as the lookup function `instructionFor` below; the debug
printing has no effect on machine state and is not modelled). -/
structure CPU where
  reg_af : AFRegister
  reg_bc : Register16bit
  reg_de : Register16bit
  reg_hl : Register16bit
  stack_pointer : Register16bit
  program_counter : Register16bit
  bus : Bus
  cycle_count : Nat
  debug : Bool
  reg_instruction : Nat
  reg_instruction_is_cb : Bool
  instruction_address : Nat
  interrupts_enabled : Bool

/-- `CPU::new`: all registers zero, cycle counter zero, debug off,
interrupts enabled. -/
def CPU.new (bus : Bus) : CPU :=
  { reg_af := AFRegister.new
    reg_bc := Register16bit.new
    reg_de := Register16bit.new
    reg_hl := Register16bit.new
    stack_pointer := Register16bit.new
    program_counter := Register16bit.new
    bus := bus
    cycle_count := 0
    debug := false
    reg_instruction := 0
    reg_instruction_is_cb := false
    instruction_address := 0
    interrupts_enabled := true }

/-- Which half of a 16-bit pair an 8-bit accessor touches
(`Subregister` in src/cpu/register.rs). -/
inductive Subreg
  | higher
  | lower
deriving DecidableEq, Repr

/-- An 8-bit operand location, i.e. the (register, accessor) pair a
macro instance in src/cpu/instruction.rs names.  `afHigher` is the
accumulator (`write_a`/`read_a`/`write_higher`/`read_higher` on
`reg_af`); `afLower` is the flag byte (`read_lower`/`write_lower` on
`reg_af`, which the CB 0x17 table entry uses). -/
inductive R8Loc
  | bc (s : Subreg)
  | de (s : Subreg)
  | hl (s : Subreg)
  | afHigher
  | afLower
deriving DecidableEq, Repr

def CPU.readR8 (c : CPU) (l : R8Loc) : Nat :=
  match l with
  | .bc .higher => c.reg_bc.read_higher
  | .bc .lower => c.reg_bc.read_lower
  | .de .higher => c.reg_de.read_higher
  | .de .lower => c.reg_de.read_lower
  | .hl .higher => c.reg_hl.read_higher
  | .hl .lower => c.reg_hl.read_lower
  | .afHigher => c.reg_af.read_higher
  | .afLower => c.reg_af.read_lower

def CPU.writeR8 (c : CPU) (l : R8Loc) (v : Nat) : CPU :=
  match l with
  | .bc .higher => { c with reg_bc := c.reg_bc.write_higher v }
  | .bc .lower => { c with reg_bc := c.reg_bc.write_lower v }
  | .de .higher => { c with reg_de := c.reg_de.write_higher v }
  | .de .lower => { c with reg_de := c.reg_de.write_lower v }
  | .hl .higher => { c with reg_hl := c.reg_hl.write_higher v }
  | .hl .lower => { c with reg_hl := c.reg_hl.write_lower v }
  | .afHigher => { c with reg_af := c.reg_af.write_higher v }
  | .afLower => { c with reg_af := c.reg_af.write_lower v }

/-- The 16-bit registers the 16-bit arithmetic/load/pointer macros name. -/
inductive Reg16
  | bc
  | de
  | hl
  | sp
deriving DecidableEq, Repr

def CPU.readReg16 (c : CPU) (r : Reg16) : Nat :=
  match r with
  | .bc => c.reg_bc.read
  | .de => c.reg_de.read
  | .hl => c.reg_hl.read
  | .sp => c.stack_pointer.read

def CPU.writeReg16 (c : CPU) (r : Reg16) (v : Nat) : CPU :=
  match r with
  | .bc => { c with reg_bc := c.reg_bc.write v }
  | .de => { c with reg_de := c.reg_de.write v }
  | .hl => { c with reg_hl := c.reg_hl.write v }
  | .sp => { c with stack_pointer := c.stack_pointer.write v }

def CPU.addReg16 (c : CPU) (r : Reg16) (v : Nat) : CPU :=
  match r with
  | .bc => { c with reg_bc := c.reg_bc.overflowing_add v }
  | .de => { c with reg_de := c.reg_de.overflowing_add v }
  | .hl => { c with reg_hl := c.reg_hl.overflowing_add v }
  | .sp => { c with stack_pointer := c.stack_pointer.overflowing_add v }

/-- The register pairs `push!`/`pop!` name (they use the whole-register
`read`/`write`, so for AF the flag byte travels verbatim). -/
inductive PushReg
  | bc
  | de
  | hl
  | af
deriving DecidableEq, Repr

def CPU.readPushReg (c : CPU) (r : PushReg) : Nat :=
  match r with
  | .bc => c.reg_bc.read
  | .de => c.reg_de.read
  | .hl => c.reg_hl.read
  | .af => c.reg_af.read

def CPU.writePushReg (c : CPU) (r : PushReg) (v : Nat) : CPU :=
  match r with
  | .bc => { c with reg_bc := c.reg_bc.write v }
  | .de => { c with reg_de := c.reg_de.write v }
  | .hl => { c with reg_hl := c.reg_hl.write v }
  | .af => { c with reg_af := c.reg_af.write v }

def CPU.flagsIns (c : CPU) (mask : Nat) : CPU :=
  { c with reg_af := { c.reg_af with flags := c.reg_af.flags.insert mask } }

def CPU.flagsRem (c : CPU) (mask : Nat) : CPU :=
  { c with reg_af := { c.reg_af with flags := c.reg_af.flags.remove mask } }

def CPU.flagsSet (c : CPU) (mask : Nat) (value : Bool) : CPU :=
  { c with reg_af := { c.reg_af with flags := c.reg_af.flags.set mask value } }

def CPU.flagsClear (c : CPU) : CPU :=
  { c with reg_af := { c.reg_af with flags := c.reg_af.flags.clear } }

def CPU.flagsContain (c : CPU) (mask : Nat) : Bool :=
  c.reg_af.flags.contains mask

def CPU.charge (c : CPU) (n : Nat) : CPU :=
  { c with cycle_count := c.cycle_count + n }

/-- `pop_u8_from_pc`: read the byte at PC, then increment PC. -/
def CPU.pop_u8_from_pc (c : CPU) : Option (Nat × CPU) :=
  (c.bus.read c.program_counter.read).map fun v =>
    (v, { c with program_counter := c.program_counter.inc })

/-- `pop_u16_from_pc`: low byte first, then high byte (little endian). -/
def CPU.pop_u16_from_pc (c : CPU) : Option (Nat × CPU) :=
  c.pop_u8_from_pc.bind fun (lo, c) =>
    c.pop_u8_from_pc.map fun (hi, c) => (lo + (hi <<< 8), c)

/-- `push_u8_to_stack`: decrement SP (wrapping add of 0xFFFF), then
write the byte at the new SP. -/
def CPU.push_u8_to_stack (c : CPU) (value : Nat) : Option CPU :=
  let c := { c with stack_pointer := c.stack_pointer.overflowing_add 0xFFFF }
  (c.bus.write c.stack_pointer.read value).map fun b => { c with bus := b }

/-- `push_u16_to_stack`: push the low byte (`value as u8`) first, then
the high byte (`(value >> 8) as u8`). -/
def CPU.push_u16_to_stack (c : CPU) (value : Nat) : Option CPU :=
  (c.push_u8_to_stack (value % 256)).bind fun c =>
    c.push_u8_to_stack ((value >>> 8) % 256)

/-- `pop_u8_from_stack`: read the byte at SP, then increment SP
(wrapping add of 1). -/
def CPU.pop_u8_from_stack (c : CPU) : Option (Nat × CPU) :=
  (c.bus.read c.stack_pointer.read).map fun v =>
    (v, { c with stack_pointer := c.stack_pointer.overflowing_add 1 })

/-- `pop_u16_from_stack`: the first popped byte is the high byte. -/
def CPU.pop_u16_from_stack (c : CPU) : Option (Nat × CPU) :=
  c.pop_u8_from_stack.bind fun (hi, c) =>
    c.pop_u8_from_stack.map fun (lo, c) => ((hi <<< 8) ||| lo, c)

/-- `set_cpu_flags_for_add` from src/cpu/instruction.rs. -/
def CPU.set_cpu_flags_for_add (c : CPU) (value : Nat) : CPU :=
  let a := c.reg_af.read_a
  let c := c.flagsSet Flags.Z ((a + value) % 256 == 0)
  let c := c.flagsSet Flags.C (256 ≤ a + value)
  let c := c.flagsSet Flags.H (0x0F < (a &&& 0x0F) + (value &&& 0x0F))
  c.flagsRem Flags.N

/-- `set_cpu_flags_for_sub_or_cp` from src/cpu/instruction.rs. -/
def CPU.set_cpu_flags_for_sub_or_cp (c : CPU) (value : Nat) : CPU :=
  let a := c.reg_af.read_a
  let c := c.flagsSet Flags.Z (a == value)
  let c := c.flagsSet Flags.C (a < value)
  let c := c.flagsSet Flags.H ((a &&& 0x0F) < (value &&& 0x0F))
  c.flagsIns Flags.N

/-- One constructor per instruction-implementation shape of
src/cpu/instruction.rs: each macro of the source corresponds to one
constructor, parameterised exactly by what the macro instances name, and
each hand-written implementation gets its own constructor. -/
inductive InstrImpl
  | notImplemented
  | nop
  | pushR16 (r : PushReg)
  | popR16 (r : PushReg)
  | inc_u8 (l : R8Loc)
  | dec_u8 (l : R8Loc)
  | inc_u16 (r : Reg16)
  | dec_u16 (r : Reg16)
  | ld_r8_imm (l : R8Loc)
  | ld_r8_r8 (dst src : R8Loc)
  | ld_r16_imm (r : Reg16)
  | ld_r8_ptr (dst : R8Loc) (ptr : Reg16) (delta : Option Nat)
  | ld_ptr_r8 (ptr : Reg16) (src : R8Loc) (delta : Option Nat)
  | rl_regular (l : R8Loc)
  | rl_fast (l : R8Loc)
  | jr
  | jr_cond (mask : Nat) (expected : Bool)
  | jp
  | jp_cond (mask : Nat) (expected : Bool)
  | jp_hl
  | add_r8 (l : R8Loc)
  | add_hl_ptr
  | add_imm
  | sub_r8 (l : R8Loc)
  | sub_hl_ptr
  | sub_imm
  | cp_r8 (l : R8Loc)
  | cp_hl_ptr
  | cp_imm
  | xor_a
  | ret
  | call
  | cb
  | ldh_imm_a
  | ldh_c_a
  | ld_a16_a
  | ldh_a_imm
  | di
  | ei
  | bit7h
deriving DecidableEq, Repr

/-- Sign extension of an `i8` jump distance to `u16`
(`i16::from(jump_distance) as u16`). -/
def signExtend8To16 (v : Nat) : Nat :=
  if v < 128 then v else 0xFF00 + v

/-- The implementation bodies from src/cpu/instruction.rs, one case per
`InstrImpl` constructor, following each source body statement by
statement.  The `cb` dispatcher is handled one level up (`execInstr`);
inside the CB table it cannot occur, so it is a fault here. -/
def CPU.execBase (i : InstrImpl) (c : CPU) : Option CPU :=
  match i with
  | .notImplemented => none
  | .nop => some (c.charge 4)
  | .pushR16 r =>
      (c.push_u16_to_stack (c.readPushReg r)).map fun c => c.charge 16
  | .popR16 r =>
      c.pop_u16_from_stack.map fun (popped_value, c) =>
        (c.writePushReg r popped_value).charge 12
  | .inc_u8 l =>
      let target_value := (c.readR8 l + 1) % 256
      let c := c.writeR8 l target_value
      let c := c.flagsRem Flags.N
      let c := c.flagsSet Flags.Z (target_value == 0)
      let c := c.flagsSet Flags.H (target_value &&& 0x0F == 0)
      some (c.charge 4)
  | .dec_u8 l =>
      let target_value := (c.readR8 l + 0xFF) % 256
      let c := c.writeR8 l target_value
      let c := c.flagsIns Flags.N
      let c := c.flagsSet Flags.Z (target_value == 0)
      let c := c.flagsSet Flags.H (target_value &&& 0x0F == 0x0F)
      some (c.charge 4)
  | .inc_u16 r => some ((c.addReg16 r 1).charge 8)
  | .dec_u16 r => some ((c.addReg16 r 0xFFFF).charge 8)
  | .ld_r8_imm l =>
      c.pop_u8_from_pc.map fun (immediate, c) =>
        (c.writeR8 l immediate).charge 8
  | .ld_r8_r8 dst src =>
      some ((c.writeR8 dst (c.readR8 src)).charge 4)
  | .ld_r16_imm r =>
      let c := c.charge 12
      c.pop_u16_from_pc.map fun (immediate, c) => c.writeReg16 r immediate
  | .ld_r8_ptr dst ptr delta =>
      let c := c.charge 8
      (c.bus.read (c.readReg16 ptr)).map fun v =>
        let c := c.writeR8 dst v
        match delta with
        | none => c
        | some d => c.addReg16 ptr d
  | .ld_ptr_r8 ptr src delta =>
      let c := c.charge 8
      (c.bus.write (c.readReg16 ptr) (c.readR8 src)).map fun b =>
        let c := { c with bus := b }
        match delta with
        | none => c
        | some d => c.addReg16 ptr d
  | .rl_regular l =>
      let c := c.charge 8
      let c := c.flagsRem Flags.N
      let c := c.flagsRem Flags.H
      let set_carry := c.readR8 l &&& 0b10000000 != 0
      let new_value := (c.readR8 l <<< 1) % 256 + (if c.flagsContain Flags.C then 1 else 0)
      let c := c.writeR8 l new_value
      let c := c.flagsSet Flags.C set_carry
      some (c.flagsSet Flags.Z (new_value == 0))
  | .rl_fast l =>
      let c := c.charge 4
      let set_carry := c.readR8 l &&& 0b10000000 != 0
      let new_value := (c.readR8 l <<< 1) % 256 + (if c.flagsContain Flags.C then 1 else 0)
      let c := c.writeR8 l new_value
      let c := c.flagsClear
      some (c.flagsSet Flags.C set_carry)
  | .jr =>
      c.pop_u8_from_pc.map fun (jump_distance, c) =>
        let c := c.charge 12
        { c with program_counter := c.program_counter.overflowing_add (signExtend8To16 jump_distance) }
  | .jr_cond mask expected =>
      c.pop_u8_from_pc.map fun (jump_distance, c) =>
        if c.flagsContain mask = expected then
          let c := c.charge 12
          { c with program_counter := c.program_counter.overflowing_add (signExtend8To16 jump_distance) }
        else c.charge 8
  | .jp =>
      c.pop_u16_from_pc.map fun (jump_address, c) =>
        let c := c.charge 12
        { c with program_counter := c.program_counter.write jump_address }
  | .jp_cond mask expected =>
      c.pop_u16_from_pc.map fun (jump_address, c) =>
        if c.flagsContain mask = expected then
          let c := c.charge 16
          { c with program_counter := c.program_counter.write jump_address }
        else c.charge 12
  | .jp_hl =>
      let c := c.charge 4
      (c.bus.read c.reg_hl.read).map fun v =>
        { c with program_counter := c.program_counter.write v }
  | .add_r8 l =>
      let addend := c.readR8 l
      let c := c.set_cpu_flags_for_add addend
      let target_value := (c.reg_af.read_a + addend) % 256
      some (({ c with reg_af := c.reg_af.write_a target_value }).charge 4)
  | .add_hl_ptr =>
      (c.bus.read c.reg_hl.read).map fun addend =>
        let c := c.set_cpu_flags_for_add addend
        let target_value := (c.reg_af.read_a + addend) % 256
        ({ c with reg_af := c.reg_af.write_a target_value }).charge 8
  | .add_imm =>
      c.pop_u8_from_pc.map fun (addend, c) =>
        let c := c.set_cpu_flags_for_add addend
        let target_value := (c.reg_af.read_a + addend) % 256
        ({ c with reg_af := c.reg_af.write_a target_value }).charge 8
  | .sub_r8 l =>
      let subtrahend := c.readR8 l
      let c := c.set_cpu_flags_for_sub_or_cp subtrahend
      let target_value := (c.reg_af.read_a + 256 - subtrahend % 256) % 256
      some (({ c with reg_af := c.reg_af.write_a target_value }).charge 4)
  | .sub_hl_ptr =>
      (c.bus.read c.reg_hl.read).map fun subtrahend =>
        let c := c.set_cpu_flags_for_sub_or_cp subtrahend
        let target_value := (c.reg_af.read_a + 256 - subtrahend % 256) % 256
        ({ c with reg_af := c.reg_af.write_a target_value }).charge 8
  | .sub_imm =>
      c.pop_u8_from_pc.map fun (subtrahend, c) =>
        let c := c.set_cpu_flags_for_sub_or_cp subtrahend
        let target_value := (c.reg_af.read_a + 256 - subtrahend % 256) % 256
        ({ c with reg_af := c.reg_af.write_a target_value }).charge 8
  | .cp_r8 l =>
      some ((c.set_cpu_flags_for_sub_or_cp (c.readR8 l)).charge 4)
  | .cp_hl_ptr =>
      (c.bus.read c.reg_hl.read).map fun subtrahend =>
        (c.set_cpu_flags_for_sub_or_cp subtrahend).charge 8
  | .cp_imm =>
      c.pop_u8_from_pc.map fun (subtrahend, c) =>
        (c.set_cpu_flags_for_sub_or_cp subtrahend).charge 8
  | .xor_a =>
      let c := c.charge 4
      let c := { c with reg_af := c.reg_af.write_a 0 }
      some (c.flagsIns Flags.Z)
  | .ret =>
      let c := c.charge 16
      c.pop_u16_from_stack.map fun (new_pc, c) =>
        { c with program_counter := c.program_counter.write new_pc }
  | .call =>
      let c := c.charge 24
      c.pop_u16_from_pc.bind fun (new_pc, c) =>
        (c.push_u16_to_stack c.program_counter.read).map fun c =>
          { c with program_counter := c.program_counter.write new_pc }
  | .cb => none
  | .ldh_imm_a =>
      let c := c.charge 12
      c.pop_u8_from_pc.bind fun (imm, c) =>
        (c.bus.write (0xFF00 + imm) c.reg_af.read_a).map fun b => { c with bus := b }
  | .ldh_c_a =>
      let c := c.charge 8
      (c.bus.write (0xFF00 + c.reg_bc.read_lower) c.reg_af.read_a).map fun b =>
        { c with bus := b }
  | .ld_a16_a =>
      let c := c.charge 16
      c.pop_u16_from_pc.bind fun (immediate, c) =>
        (c.bus.write immediate c.reg_af.read_a).map fun b => { c with bus := b }
  | .ldh_a_imm =>
      let c := c.charge 12
      c.pop_u8_from_pc.bind fun (imm, c) =>
        (c.bus.read (0xFF00 + imm)).map fun v =>
          { c with reg_af := c.reg_af.write_a v }
  | .di => some ({ c.charge 4 with interrupts_enabled := false })
  | .ei => some ({ c.charge 4 with interrupts_enabled := true })
  | .bit7h =>
      let c := c.charge 8
      let c := c.flagsRem Flags.N
      let c := c.flagsIns Flags.H
      some (c.flagsSet Flags.Z (c.reg_hl.read_higher &&& (1 <<< 7) == 0))

/-- One row of the instruction tables (mnemonic/description strings and
the textual cycle annotations carry no semantics and are omitted). -/
structure Instruction where
  opcode : Nat
  length_in_bytes : Nat
  impl : InstrImpl
deriving DecidableEq, Repr

def INSTRUCTIONS_NOCB_part0 : List Instruction := [
  ⟨0x00, 1, .nop⟩,
  ⟨0x01, 3, .notImplemented⟩,
  ⟨0x02, 1, .ld_ptr_r8 .bc .afHigher none⟩,
  ⟨0x03, 1, .inc_u16 .bc⟩,
  ⟨0x04, 1, .inc_u8 (.bc .higher)⟩,
  ⟨0x05, 1, .dec_u8 (.bc .higher)⟩,
  ⟨0x06, 2, .ld_r8_imm (.bc .higher)⟩,
  ⟨0x0A, 1, .ld_r8_ptr .afHigher .bc none⟩,
  ⟨0x0B, 1, .dec_u16 .bc⟩,
  ⟨0x0C, 1, .inc_u8 (.bc .lower)⟩,
  ⟨0x0D, 1, .dec_u8 (.bc .lower)⟩,
  ⟨0x0E, 2, .ld_r8_imm (.bc .lower)⟩,
  ⟨0x11, 3, .ld_r16_imm .de⟩,
  ⟨0x12, 1, .ld_ptr_r8 .de .afHigher none⟩,
  ⟨0x13, 1, .inc_u16 .de⟩,
  ⟨0x14, 1, .inc_u8 (.de .higher)⟩,
  ⟨0x15, 1, .dec_u8 (.de .higher)⟩,
  ⟨0x16, 2, .ld_r8_imm (.de .higher)⟩,
  ⟨0x17, 1, .rl_fast .afHigher⟩,
  ⟨0x18, 2, .jr⟩,
  ⟨0x1A, 1, .ld_r8_ptr .afHigher .de none⟩,
  ⟨0x1B, 1, .dec_u16 .de⟩,
  ⟨0x1C, 1, .inc_u8 (.de .lower)⟩,
  ⟨0x1D, 1, .dec_u8 (.de .lower)⟩,
  ⟨0x1E, 2, .ld_r8_imm (.de .lower)⟩,
  ⟨0x20, 2, .jr_cond Flags.Z false⟩,
  ⟨0x21, 3, .ld_r16_imm .hl⟩,
  ⟨0x22, 1, .ld_ptr_r8 .hl .afHigher (some 0x0001)⟩]

def INSTRUCTIONS_NOCB_part1 : List Instruction := [
  ⟨0x23, 1, .inc_u16 .hl⟩,
  ⟨0x24, 1, .inc_u8 (.hl .higher)⟩,
  ⟨0x25, 1, .dec_u8 (.hl .higher)⟩,
  ⟨0x26, 2, .ld_r8_imm (.hl .higher)⟩,
  ⟨0x28, 2, .jr_cond Flags.Z true⟩,
  ⟨0x2A, 1, .ld_r8_ptr .afHigher .hl (some 0x0001)⟩,
  ⟨0x2B, 1, .dec_u16 .hl⟩,
  ⟨0x2C, 1, .inc_u8 (.hl .lower)⟩,
  ⟨0x2D, 1, .dec_u8 (.hl .lower)⟩,
  ⟨0x2E, 2, .ld_r8_imm (.hl .lower)⟩,
  ⟨0x30, 2, .jr_cond Flags.C false⟩,
  ⟨0x31, 3, .ld_r16_imm .sp⟩,
  ⟨0x32, 1, .ld_ptr_r8 .hl .afHigher (some 0xFFFF)⟩,
  ⟨0x33, 1, .inc_u16 .sp⟩,
  ⟨0x38, 2, .jr_cond Flags.C true⟩,
  ⟨0x3A, 1, .ld_r8_ptr .afHigher .hl (some 0xFFFF)⟩,
  ⟨0x3B, 1, .dec_u16 .sp⟩,
  ⟨0x3C, 1, .inc_u8 .afHigher⟩,
  ⟨0x3D, 1, .dec_u8 .afHigher⟩,
  ⟨0x3E, 2, .ld_r8_imm .afHigher⟩,
  ⟨0x40, 1, .ld_r8_r8 (.bc .higher) (.bc .higher)⟩,
  ⟨0x41, 1, .ld_r8_r8 (.bc .higher) (.bc .lower)⟩,
  ⟨0x42, 1, .ld_r8_r8 (.bc .higher) (.de .higher)⟩,
  ⟨0x43, 1, .ld_r8_r8 (.bc .higher) (.de .lower)⟩,
  ⟨0x44, 1, .ld_r8_r8 (.bc .higher) (.hl .higher)⟩,
  ⟨0x45, 1, .ld_r8_r8 (.bc .higher) (.hl .lower)⟩,
  ⟨0x46, 1, .ld_r8_ptr (.bc .higher) .hl none⟩,
  ⟨0x47, 1, .ld_r8_r8 (.bc .higher) .afHigher⟩]

def INSTRUCTIONS_NOCB_part2 : List Instruction := [
  ⟨0x48, 1, .ld_r8_r8 (.bc .lower) (.bc .higher)⟩,
  ⟨0x49, 1, .ld_r8_r8 (.bc .lower) (.bc .lower)⟩,
  ⟨0x4A, 1, .ld_r8_r8 (.bc .lower) (.de .higher)⟩,
  ⟨0x4B, 1, .ld_r8_r8 (.bc .lower) (.de .lower)⟩,
  ⟨0x4C, 1, .ld_r8_r8 (.bc .lower) (.hl .higher)⟩,
  ⟨0x4D, 1, .ld_r8_r8 (.bc .lower) (.hl .lower)⟩,
  ⟨0x4E, 1, .ld_r8_ptr (.bc .lower) .hl none⟩,
  ⟨0x4F, 1, .ld_r8_r8 (.bc .lower) .afHigher⟩,
  ⟨0x50, 1, .ld_r8_r8 (.de .higher) (.bc .higher)⟩,
  ⟨0x51, 1, .ld_r8_r8 (.de .higher) (.bc .lower)⟩,
  ⟨0x52, 1, .ld_r8_r8 (.de .higher) (.de .higher)⟩,
  ⟨0x53, 1, .ld_r8_r8 (.de .higher) (.de .lower)⟩,
  ⟨0x54, 1, .ld_r8_r8 (.de .higher) (.hl .higher)⟩,
  ⟨0x55, 1, .ld_r8_r8 (.de .higher) (.hl .lower)⟩,
  ⟨0x56, 1, .ld_r8_ptr (.de .higher) .hl none⟩,
  ⟨0x57, 1, .ld_r8_r8 (.de .higher) .afHigher⟩,
  ⟨0x58, 1, .ld_r8_r8 (.de .lower) (.bc .higher)⟩,
  ⟨0x59, 1, .ld_r8_r8 (.de .lower) (.bc .lower)⟩,
  ⟨0x5A, 1, .ld_r8_r8 (.de .lower) (.de .higher)⟩,
  ⟨0x5B, 1, .ld_r8_r8 (.de .lower) (.de .lower)⟩,
  ⟨0x5C, 1, .ld_r8_r8 (.de .lower) (.hl .higher)⟩,
  ⟨0x5D, 1, .ld_r8_r8 (.de .lower) (.hl .lower)⟩,
  ⟨0x5E, 1, .ld_r8_ptr (.de .lower) .hl none⟩,
  ⟨0x5F, 1, .ld_r8_r8 (.de .lower) .afHigher⟩,
  ⟨0x60, 1, .ld_r8_r8 (.hl .higher) (.bc .higher)⟩,
  ⟨0x61, 1, .ld_r8_r8 (.hl .higher) (.bc .lower)⟩,
  ⟨0x62, 1, .ld_r8_r8 (.hl .higher) (.de .higher)⟩,
  ⟨0x63, 1, .ld_r8_r8 (.hl .higher) (.de .lower)⟩]

def INSTRUCTIONS_NOCB_part3 : List Instruction := [
  ⟨0x64, 1, .ld_r8_r8 (.hl .higher) (.hl .higher)⟩,
  ⟨0x65, 1, .ld_r8_r8 (.hl .higher) (.hl .lower)⟩,
  ⟨0x66, 1, .ld_r8_ptr (.hl .higher) .hl none⟩,
  ⟨0x67, 1, .ld_r8_r8 (.hl .higher) .afHigher⟩,
  ⟨0x68, 1, .ld_r8_r8 (.hl .lower) (.bc .higher)⟩,
  ⟨0x69, 1, .ld_r8_r8 (.hl .lower) (.bc .lower)⟩,
  ⟨0x6A, 1, .ld_r8_r8 (.hl .lower) (.de .higher)⟩,
  ⟨0x6B, 1, .ld_r8_r8 (.hl .lower) (.de .lower)⟩,
  ⟨0x6C, 1, .ld_r8_r8 (.hl .lower) (.hl .higher)⟩,
  ⟨0x6D, 1, .ld_r8_r8 (.hl .lower) (.hl .lower)⟩,
  ⟨0x6E, 1, .ld_r8_ptr (.hl .lower) .hl none⟩,
  ⟨0x6F, 1, .ld_r8_r8 (.hl .lower) .afHigher⟩,
  ⟨0x70, 1, .ld_ptr_r8 .hl (.bc .higher) none⟩,
  ⟨0x71, 1, .ld_ptr_r8 .hl (.bc .lower) none⟩,
  ⟨0x72, 1, .ld_ptr_r8 .hl (.de .higher) none⟩,
  ⟨0x73, 1, .ld_ptr_r8 .hl (.de .lower) none⟩,
  ⟨0x74, 1, .ld_ptr_r8 .hl (.hl .higher) none⟩,
  ⟨0x75, 1, .ld_ptr_r8 .hl (.hl .lower) none⟩,
  ⟨0x77, 1, .ld_ptr_r8 .hl .afHigher none⟩,
  ⟨0x78, 1, .ld_r8_r8 .afHigher (.bc .higher)⟩,
  ⟨0x79, 1, .ld_r8_r8 .afHigher (.bc .lower)⟩,
  ⟨0x7A, 1, .ld_r8_r8 .afHigher (.de .higher)⟩,
  ⟨0x7B, 1, .ld_r8_r8 .afHigher (.de .lower)⟩,
  ⟨0x7C, 1, .ld_r8_r8 .afHigher (.hl .higher)⟩,
  ⟨0x7D, 1, .ld_r8_r8 .afHigher (.hl .lower)⟩,
  ⟨0x7E, 1, .ld_r8_ptr .afHigher .hl none⟩,
  ⟨0x7F, 1, .ld_r8_r8 .afHigher .afHigher⟩,
  ⟨0x80, 1, .add_r8 (.bc .higher)⟩]

def INSTRUCTIONS_NOCB_part4 : List Instruction := [
  ⟨0x81, 1, .add_r8 (.bc .lower)⟩,
  ⟨0x82, 1, .add_r8 (.de .higher)⟩,
  ⟨0x83, 1, .add_r8 (.de .lower)⟩,
  ⟨0x84, 1, .add_r8 (.hl .higher)⟩,
  ⟨0x85, 1, .add_r8 (.hl .lower)⟩,
  ⟨0x86, 1, .add_hl_ptr⟩,
  ⟨0x87, 1, .add_r8 .afHigher⟩,
  ⟨0x90, 1, .sub_r8 (.bc .higher)⟩,
  ⟨0x91, 1, .sub_r8 (.bc .lower)⟩,
  ⟨0x92, 1, .sub_r8 (.de .higher)⟩,
  ⟨0x93, 1, .sub_r8 (.de .lower)⟩,
  ⟨0x94, 1, .sub_r8 (.hl .higher)⟩,
  ⟨0x95, 1, .sub_r8 (.hl .lower)⟩,
  ⟨0x96, 1, .sub_hl_ptr⟩,
  ⟨0x97, 1, .sub_r8 .afHigher⟩,
  ⟨0xAF, 1, .xor_a⟩,
  ⟨0xB8, 1, .cp_r8 (.bc .higher)⟩,
  ⟨0xB9, 1, .cp_r8 (.bc .lower)⟩,
  ⟨0xBA, 1, .cp_r8 (.de .higher)⟩,
  ⟨0xBB, 1, .cp_r8 (.de .lower)⟩,
  ⟨0xBC, 1, .cp_r8 (.hl .higher)⟩,
  ⟨0xBD, 1, .cp_r8 (.hl .lower)⟩,
  ⟨0xBE, 1, .cp_hl_ptr⟩,
  ⟨0xBF, 1, .cp_r8 .afHigher⟩,
  ⟨0xC1, 1, .popR16 .bc⟩,
  ⟨0xC2, 3, .jp_cond Flags.Z false⟩,
  ⟨0xC3, 3, .jp⟩,
  ⟨0xC5, 1, .pushR16 .bc⟩]

def INSTRUCTIONS_NOCB_part5 : List Instruction := [
  ⟨0xC6, 2, .add_imm⟩,
  ⟨0xC9, 1, .ret⟩,
  ⟨0xCA, 3, .jp_cond Flags.Z true⟩,
  ⟨0xCB, 0, .cb⟩,
  ⟨0xCD, 3, .call⟩,
  ⟨0xD1, 1, .popR16 .de⟩,
  ⟨0xD2, 3, .jp_cond Flags.C false⟩,
  ⟨0xD5, 1, .pushR16 .de⟩,
  ⟨0xD6, 2, .sub_imm⟩,
  ⟨0xDA, 3, .jp_cond Flags.C true⟩,
  ⟨0xE0, 2, .ldh_imm_a⟩,
  ⟨0xE1, 1, .popR16 .hl⟩,
  ⟨0xE2, 1, .ldh_c_a⟩,
  ⟨0xE5, 1, .pushR16 .hl⟩,
  ⟨0xE9, 1, .jp_hl⟩,
  ⟨0xEA, 3, .ld_a16_a⟩,
  ⟨0xF0, 2, .ldh_a_imm⟩,
  ⟨0xF1, 1, .popR16 .af⟩,
  ⟨0xF3, 1, .di⟩,
  ⟨0xF5, 1, .pushR16 .af⟩,
  ⟨0xFB, 1, .ei⟩,
  ⟨0xFE, 2, .cp_imm⟩]

/-- The 162 rows of `INSTRUCTIONS_NOCB` from src/cpu/instruction.rs, in
source order, split into chunks only to keep elaboration fast.  Opcode
0x01 is present in the table but its implementation is
`panic!("Not implemented")`. -/
def INSTRUCTIONS_NOCB : List Instruction :=
  INSTRUCTIONS_NOCB_part0 ++ INSTRUCTIONS_NOCB_part1 ++ INSTRUCTIONS_NOCB_part2 ++
  INSTRUCTIONS_NOCB_part3 ++ INSTRUCTIONS_NOCB_part4 ++ INSTRUCTIONS_NOCB_part5

/-- The 8 rows of `INSTRUCTIONS_CB` from src/cpu/instruction.rs.  Note
the 0x17 row: the source instantiates `rotate_left_trough_carry!` with
`reg_af, read_lower, write_lower`, i.e. it rotates the flag byte, even
though its mnemonic is "RL A". -/
def INSTRUCTIONS_CB : List Instruction := [
  ⟨0x10, 2, .rl_regular (.bc .higher)⟩,
  ⟨0x11, 2, .rl_regular (.bc .lower)⟩,
  ⟨0x12, 2, .rl_regular (.de .higher)⟩,
  ⟨0x13, 2, .rl_regular (.de .lower)⟩,
  ⟨0x14, 2, .rl_regular (.hl .higher)⟩,
  ⟨0x15, 2, .rl_regular (.hl .lower)⟩,
  ⟨0x17, 2, .rl_regular .afLower⟩,
  ⟨0x7C, 2, .bit7h⟩]

/-- Table lookup.  `CPU::new` pads the gaps of the opcode-indexed
vectors with entries that dump state and panic; looking an opcode up in
the row list and defaulting to `notImplemented` is the same function. -/
def instructionFor (table : List Instruction) (op : Nat) : InstrImpl :=
  match table.find? (fun i => i.opcode == op) with
  | some i => i.impl
  | none => .notImplemented

/-- `CPU::run_cb_op`: record the address, fetch the second opcode byte,
execute the CB-table handler.  No bus cycling happens here; the outer
`run_op` settles the whole step's cycle delta. -/
def CPU.run_cb_op (c : CPU) : Option CPU :=
  let c := { c with instruction_address := c.program_counter.read }
  c.pop_u8_from_pc.bind fun (op, c) =>
    let c := { c with reg_instruction := op, reg_instruction_is_cb := true }
    CPU.execBase (instructionFor INSTRUCTIONS_CB op) c

/-- Dispatch an implementation; the CB prefix runs `run_cb_op`. -/
def CPU.execInstr (i : InstrImpl) (c : CPU) : Option CPU :=
  match i with
  | .cb => c.run_cb_op
  | i => CPU.execBase i c

/-- `CPU::run_op`: record the instruction address, fetch the opcode,
execute the handler, then invoke `bus.cycle()` once per cycle the
handler added to `cycle_count`. -/
def CPU.run_op (c : CPU) : Option CPU :=
  let c := { c with instruction_address := c.program_counter.read }
  c.pop_u8_from_pc.bind fun (op, c) =>
    let c := { c with reg_instruction := op, reg_instruction_is_cb := false }
    let cycles_before_op := c.cycle_count
    (CPU.execInstr (instructionFor INSTRUCTIONS_NOCB op) c).map fun c =>
      { c with bus := Bus.cycleN (c.cycle_count - cycles_before_op) c.bus }

/-- `CPU::step`. -/
def CPU.step (c : CPU) : Option CPU := c.run_op

/-- The successor state of a step that is known to succeed (used to
state closed evaluation facts). -/
def stepApplied (c : CPU) : CPU := (c.step).getD c

/-! ## Helper lemmas about the bus dispatch -/

/-- The legal single-step mode moves of the PPU state machine: stay, or
advance in the order OAM, PixelTransfer, HBlank, then OAM or VBlank
depending on the line, and from VBlank back to OAM. -/
def ModeAdvanceOk (m m' : PpuMode) : Prop :=
  m' = m ∨
  (m = .OAM ∧ m' = .PixelTransfer) ∨
  (m = .PixelTransfer ∧ m' = .HBlank) ∨
  (m = .HBlank ∧ (m' = .OAM ∨ m' = .VBlank)) ∨
  (m = .VBlank ∧ m' = .OAM)

theorem ByteVec.get?_set?_same (d d2 : ByteVec) (i x : Nat) (h : d.set? i x = some d2) :
    d2.get? i = some (x % 256) := by
  unfold ByteVec.set? at h
  split at h
  · cases h
    simp [ByteVec.get?, *]
  · cases h

theorem ByteVec.get?_set?_other (d d2 : ByteVec) (i x j : Nat) (h : d.set? i x = some d2)
    (hij : j ≠ i) : d2.get? j = d.get? j := by
  unfold ByteVec.set? at h
  split at h
  · cases h
    simp [ByteVec.get?, hij]
  · cases h

theorem ByteVec.length_set? (d d2 : ByteVec) (i x : Nat) (h : d.set? i x = some d2) :
    d2.length = d.length := by
  unfold ByteVec.set? at h
  split at h
  · cases h; rfl
  · cases h

theorem ByteVec.set?_isSome (d : ByteVec) (i x : Nat) (h : i < d.length) :
    ∃ d2, d.set? i x = some d2 := by
  unfold ByteVec.set?
  rw [if_pos h]
  exact ⟨_, rfl⟩

theorem Bus.read_work_zone (b : Bus) (a : Nat) (h1 : 0xC000 ≤ a) (h2 : a < 0xD000) :
    b.read a = b.work_ram.read a := by
  unfold Bus.read
  rw [if_neg (show ¬(b.boot_rom_active = true ∧ a < 0x100) by rintro ⟨-, h⟩; omega),
    if_neg (show ¬(a < 0x4000) by omega), if_neg (show ¬(a < 0x8000) by omega),
    if_neg (show ¬(a < 0xA000) by omega), if_neg (show ¬(a < 0xC000) by omega),
    if_pos h2]

theorem Bus.read_video_zone (b : Bus) (a : Nat) (h1 : 0x8000 ≤ a) (h2 : a < 0xA000) :
    b.read a = b.video_ram.read a := by
  unfold Bus.read
  rw [if_neg (show ¬(b.boot_rom_active = true ∧ a < 0x100) by rintro ⟨-, h⟩; omega),
    if_neg (show ¬(a < 0x4000) by omega), if_neg (show ¬(a < 0x8000) by omega),
    if_pos h2]

theorem Bus.read_high_zone (b : Bus) (a : Nat) (h1 : 0xFF80 ≤ a) (h2 : a < 0xFFFF) :
    b.read a = b.high_ram.read a := by
  unfold Bus.read
  rw [if_neg (show ¬(b.boot_rom_active = true ∧ a < 0x100) by rintro ⟨-, h⟩; omega),
    if_neg (show ¬(a < 0x4000) by omega), if_neg (show ¬(a < 0x8000) by omega),
    if_neg (show ¬(a < 0xA000) by omega), if_neg (show ¬(a < 0xC000) by omega),
    if_neg (show ¬(a < 0xD000) by omega),
    if_neg (show ¬(0xFF00 ≤ a ∧ a < 0xFF00 + 0x80) by rintro ⟨-, h⟩; omega),
    if_pos (show 0xFF80 ≤ a ∧ a < 0xFF80 + 0x7F by omega)]

theorem Bus.write_work_zone (b : Bus) (a v : Nat) (h1 : 0xC000 ≤ a) (h2 : a < 0xD000) :
    b.write a v = (b.work_ram.write a v).map fun z => { b with work_ram := z } := by
  unfold Bus.write Bus.write_dispatch
  rw [if_neg (show ¬(a = 0xFF50 ∧ v = 1) by rintro ⟨h, -⟩; omega)]
  rw [if_neg (show ¬(b.boot_rom_active = true ∧ a < 0x100) by rintro ⟨-, h⟩; omega),
    if_neg (show ¬(a < 0x4000) by omega), if_neg (show ¬(a < 0x8000) by omega),
    if_neg (show ¬(a < 0xA000) by omega), if_neg (show ¬(a < 0xC000) by omega),
    if_pos h2]

theorem Bus.write_video_zone (b : Bus) (a v : Nat) (h1 : 0x8000 ≤ a) (h2 : a < 0xA000) :
    b.write a v = (b.video_ram.write a v).map fun z => { b with video_ram := z } := by
  unfold Bus.write Bus.write_dispatch
  rw [if_neg (show ¬(a = 0xFF50 ∧ v = 1) by rintro ⟨h, -⟩; omega)]
  rw [if_neg (show ¬(b.boot_rom_active = true ∧ a < 0x100) by rintro ⟨-, h⟩; omega),
    if_neg (show ¬(a < 0x4000) by omega), if_neg (show ¬(a < 0x8000) by omega),
    if_pos h2]

theorem Bus.write_high_zone (b : Bus) (a v : Nat) (h1 : 0xFF80 ≤ a) (h2 : a < 0xFFFF) :
    b.write a v = (b.high_ram.write a v).map fun z => { b with high_ram := z } := by
  unfold Bus.write Bus.write_dispatch
  rw [if_neg (show ¬(a = 0xFF50 ∧ v = 1) by rintro ⟨h, -⟩; omega)]
  rw [if_neg (show ¬(b.boot_rom_active = true ∧ a < 0x100) by rintro ⟨-, h⟩; omega),
    if_neg (show ¬(a < 0x4000) by omega), if_neg (show ¬(a < 0x8000) by omega),
    if_neg (show ¬(a < 0xA000) by omega), if_neg (show ¬(a < 0xC000) by omega),
    if_neg (show ¬(a < 0xD000) by omega),
    if_neg (show ¬(0xFF00 ≤ a ∧ a < 0xFF00 + 0x80) by rintro ⟨-, h⟩; omega),
    if_pos (show 0xFF80 ≤ a ∧ a < 0xFF80 + 0x7F by omega)]

/-- The RAM shapes every constructed bus has (`Bus::new` /
`Bus::new_from_vecs`): one 0x1000-byte work-RAM bank at 0xC000, a
0x2000-byte video RAM at 0x8000 and a 0x7F-byte high RAM at 0xFF80. -/
def Bus.WFRam (b : Bus) : Prop :=
  b.work_ram.base_address = 0xC000 ∧ b.work_ram.data.length = 0x1000 ∧
  b.video_ram.base_address = 0x8000 ∧ b.video_ram.data.length = 0x2000 ∧
  b.high_ram.base_address = 0xFF80 ∧ b.high_ram.data.length = 0x7F

/-- The addresses the dispatch routes to a writable RAM bank. -/
def WritableRAMAddr (a : Nat) : Prop :=
  (0x8000 ≤ a ∧ a < 0xA000) ∨ (0xC000 ≤ a ∧ a < 0xD000) ∨ (0xFF80 ≤ a ∧ a < 0xFFFF)

theorem Bus.new_from_vecs_WFRam (bd cd : List Nat) : (Bus.new_from_vecs bd cd).WFRam :=
  ⟨rfl, rfl, rfl, rfl, rfl, rfl⟩

theorem RAMBank.write_read (z z2 : RAMBank) (a v : Nat) (ha : z.base_address ≤ a)
    (h : z.write a v = some z2) :
    z2.read a = some (v % 256) ∧ z2.base_address = z.base_address ∧
      z2.data.length = z.data.length ∧
      ∀ j, z.base_address ≤ j → j ≠ a → z2.read j = z.read j := by
  unfold RAMBank.write at h
  cases hs : z.data.set? (a - z.base_address) v with
  | none => rw [hs] at h; cases h
  | some d2 =>
    rw [hs] at h
    simp only [Option.map_some', Option.some.injEq] at h
    subst h
    refine ⟨?_, rfl, ByteVec.length_set? _ _ _ _ hs, ?_⟩
    · unfold RAMBank.read
      dsimp only
      exact ByteVec.get?_set?_same _ _ _ _ hs
    · intro j hj hja
      unfold RAMBank.read
      dsimp only
      exact ByteVec.get?_set?_other _ _ _ _ _ hs (by omega)

theorem RAMBank.write_isSome (z : RAMBank) (a v : Nat)
    (h : a - z.base_address < z.data.length) : ∃ z2, z.write a v = some z2 := by
  unfold RAMBank.write
  obtain ⟨d2, hd⟩ := ByteVec.set?_isSome z.data (a - z.base_address) v h
  rw [hd]
  exact ⟨_, rfl⟩

/-- Writing a byte to any writable-RAM address succeeds, reads back
(mod 256), leaves every other writable-RAM address unchanged and does
not touch the overlay flag, the PPU or the other bus components. -/
theorem Bus.write_writable (b : Bus) (a v : Nat) (hWF : b.WFRam) (ha : WritableRAMAddr a) :
    ∃ b2, b.write a v = some b2 ∧ b2.WFRam ∧
      b2.boot_rom_active = b.boot_rom_active ∧ b2.ppu = b.ppu ∧
      b2.boot_rom = b.boot_rom ∧ b2.cartridge = b.cartridge ∧
      b2.read a = some (v % 256) ∧
      ∀ j, WritableRAMAddr j → j ≠ a → b2.read j = b.read j := by
  obtain ⟨hwb, hwl, hvb, hvl, hhb, hhl⟩ := hWF
  rcases ha with ⟨ha1, ha2⟩ | ⟨ha1, ha2⟩ | ⟨ha1, ha2⟩
  · -- video RAM
    obtain ⟨z2, hz⟩ := RAMBank.write_isSome b.video_ram a v (by omega)
    obtain ⟨hr, hb2, hl2, hfr⟩ := RAMBank.write_read _ _ _ _ (by omega) hz
    refine ⟨{ b with video_ram := z2 }, ?_, ⟨hwb, hwl, by rw [hb2, hvb], by rw [hl2, hvl], hhb, hhl⟩,
      rfl, rfl, rfl, rfl, ?_, ?_⟩
    · rw [Bus.write_video_zone b a v ha1 ha2, hz]; rfl
    · rw [Bus.read_video_zone _ a ha1 ha2]; exact hr
    · intro j hj hja
      rcases hj with ⟨hj1, hj2⟩ | ⟨hj1, hj2⟩ | ⟨hj1, hj2⟩
      · rw [Bus.read_video_zone _ j hj1 hj2, Bus.read_video_zone _ j hj1 hj2]
        exact hfr j (by omega) hja
      · rw [Bus.read_work_zone _ j hj1 hj2, Bus.read_work_zone _ j hj1 hj2]
      · rw [Bus.read_high_zone _ j hj1 hj2, Bus.read_high_zone _ j hj1 hj2]
  · -- work RAM
    obtain ⟨z2, hz⟩ := RAMBank.write_isSome b.work_ram a v (by omega)
    obtain ⟨hr, hb2, hl2, hfr⟩ := RAMBank.write_read _ _ _ _ (by omega) hz
    refine ⟨{ b with work_ram := z2 }, ?_, ⟨by rw [hb2, hwb], by rw [hl2, hwl], hvb, hvl, hhb, hhl⟩,
      rfl, rfl, rfl, rfl, ?_, ?_⟩
    · rw [Bus.write_work_zone b a v ha1 ha2, hz]; rfl
    · rw [Bus.read_work_zone _ a ha1 ha2]; exact hr
    · intro j hj hja
      rcases hj with ⟨hj1, hj2⟩ | ⟨hj1, hj2⟩ | ⟨hj1, hj2⟩
      · rw [Bus.read_video_zone _ j hj1 hj2, Bus.read_video_zone _ j hj1 hj2]
      · rw [Bus.read_work_zone _ j hj1 hj2, Bus.read_work_zone _ j hj1 hj2]
        exact hfr j (by omega) hja
      · rw [Bus.read_high_zone _ j hj1 hj2, Bus.read_high_zone _ j hj1 hj2]
  · -- high RAM
    obtain ⟨z2, hz⟩ := RAMBank.write_isSome b.high_ram a v (by omega)
    obtain ⟨hr, hb2, hl2, hfr⟩ := RAMBank.write_read _ _ _ _ (by omega) hz
    refine ⟨{ b with high_ram := z2 }, ?_, ⟨hwb, hwl, hvb, hvl, by rw [hb2, hhb], by rw [hl2, hhl]⟩,
      rfl, rfl, rfl, rfl, ?_, ?_⟩
    · rw [Bus.write_high_zone b a v ha1 ha2, hz]; rfl
    · rw [Bus.read_high_zone _ a ha1 ha2]; exact hr
    · intro j hj hja
      rcases hj with ⟨hj1, hj2⟩ | ⟨hj1, hj2⟩ | ⟨hj1, hj2⟩
      · rw [Bus.read_video_zone _ j hj1 hj2, Bus.read_video_zone _ j hj1 hj2]
      · rw [Bus.read_work_zone _ j hj1 hj2, Bus.read_work_zone _ j hj1 hj2]
      · rw [Bus.read_high_zone _ j hj1 hj2, Bus.read_high_zone _ j hj1 hj2]
        exact hfr j (by omega) hja

/-- The dispatch part of a bus write never changes the overlay flag, the
boot ROM, the cartridge contents it does not write, or the PPU's cycle
counter (the only PPU field a write can reach is `bg_scroll_y`, via
0xFF42). -/
theorem Bus.write_dispatch_fields (b b2 : Bus) (a v : Nat) (h : b.write_dispatch a v = some b2) :
    b2.boot_rom_active = b.boot_rom_active ∧ b2.boot_rom = b.boot_rom ∧
      b2.ppu.cycle_count = b.ppu.cycle_count := by
  unfold Bus.write_dispatch at h
  split at h
  · cases h
  split at h
  · simp only [Option.bind_eq_some, Option.map_eq_some'] at h
    obtain ⟨bank, -, bank2, -, rfl⟩ := h
    exact ⟨rfl, rfl, rfl⟩
  split at h
  · cases h
  split at h
  · simp only [Option.map_eq_some'] at h
    obtain ⟨z, -, rfl⟩ := h
    exact ⟨rfl, rfl, rfl⟩
  split at h
  · cases h
  split at h
  · simp only [Option.map_eq_some'] at h
    obtain ⟨z, -, rfl⟩ := h
    exact ⟨rfl, rfl, rfl⟩
  split at h
  · unfold Bus.ioWrite at h
    simp only [Option.bind_eq_some, Option.map_eq_some'] at h
    obtain ⟨b3, hacc, io, -, rfl⟩ := h
    split at hacc
    · cases hacc; exact ⟨rfl, rfl, rfl⟩
    split at hacc
    · cases hacc; exact ⟨rfl, rfl, rfl⟩
    split at hacc
    · cases hacc; exact ⟨rfl, rfl, rfl⟩
    split at hacc
    · split at hacc
      · cases hacc; exact ⟨rfl, rfl, rfl⟩
      · cases hacc
    · cases hacc
  split at h
  · simp only [Option.map_eq_some'] at h
    obtain ⟨z, -, rfl⟩ := h
    exact ⟨rfl, rfl, rfl⟩
  · cases h

theorem Bus.write_boot_rom_active (b b2 : Bus) (a v : Nat) (h : b.write a v = some b2) :
    b2.boot_rom_active = if a = 0xFF50 ∧ v = 1 then false else b.boot_rom_active := by
  unfold Bus.write at h
  by_cases h50 : a = 0xFF50 ∧ v = 1
  · rw [if_pos h50] at h
    rw [if_pos h50]
    exact (Bus.write_dispatch_fields _ _ _ _ h).1
  · rw [if_neg h50] at h
    rw [if_neg h50]
    exact (Bus.write_dispatch_fields _ _ _ _ h).1

theorem Bus.read_cart_when_inactive (b : Bus) (a : Nat) (hb : b.boot_rom_active = false)
    (ha : a < 0x4000) :
    b.read a = (b.cartridge.rom_banks.get? 0).bind fun bank => bank.read a := by
  unfold Bus.read
  rw [if_neg (by rw [hb]; rintro ⟨h1, -⟩; cases h1), if_pos ha]

theorem Bus.write_ff50_one (b : Bus) (hio : b.io_ports.data.length = 0x80) :
    ∃ b2, b.write 0xFF50 1 = some b2 ∧ b2.boot_rom_active = false ∧
      b2.cartridge = b.cartridge := by
  unfold Bus.write
  rw [if_pos ⟨rfl, rfl⟩]
  unfold Bus.write_dispatch
  rw [if_neg (by rintro ⟨-, h⟩; omega), if_neg (by omega), if_neg (by omega),
    if_neg (by omega), if_neg (by omega), if_neg (by omega),
    if_pos (show (0xFF00:Nat) ≤ 0xFF50 ∧ (0xFF50:Nat) < 0xFF00 + 0x80 by omega)]
  unfold Bus.ioWrite
  rw [if_neg (by omega), if_neg (by omega), if_neg (by omega), if_pos rfl, if_pos rfl]
  unfold IOPorts.store ByteVec.set?
  simp only [Option.some_bind]
  rw [if_pos (show (0xFF50:Nat) - 0xFF00 < b.io_ports.data.length by rw [hio]; omega)]
  simp only [Option.map_some']
  exact ⟨_, rfl, rfl, rfl⟩

/-! ## Claim theorems -/

/-- C1: with the overlay active, `bus.write(0xFF50, 1)` permanently
disables the boot-ROM overlay: the concrete scenario (0x12 at boot-ROM
offset 0, 0x34 at cartridge bank-0 offset 0) reads 0x12 before and 0x34
after the write; after the write every address below 0x100 reads the
cartridge bank-0 byte; once the overlay is off no write turns it back
on; and a write other than (0xFF50, 1) never changes the overlay flag. -/
theorem C1_ff50_disables_bootrom_overlay :
    (Bus.new_from_vecs [0x12] [0x34]).read 0x0000 = some 0x12 ∧
    ((Bus.new_from_vecs [0x12] [0x34]).write 0xFF50 1).isSome = true ∧
    (((Bus.new_from_vecs [0x12] [0x34]).write 0xFF50 1).getD
        (Bus.new_from_vecs [0x12] [0x34])).boot_rom_active = false ∧
    (((Bus.new_from_vecs [0x12] [0x34]).write 0xFF50 1).getD
        (Bus.new_from_vecs [0x12] [0x34])).read 0x0000 = some 0x34 ∧
    (∀ b : Bus, b.io_ports.data.length = 0x80 →
      ∃ b2, b.write 0xFF50 1 = some b2 ∧ b2.boot_rom_active = false ∧
        ∀ a, a < 0x100 →
          b2.read a = (b.cartridge.rom_banks.get? 0).bind fun bank => bank.read a) ∧
    (∀ (b b2 : Bus) (a v : Nat), b.write a v = some b2 →
      b.boot_rom_active = false → b2.boot_rom_active = false) ∧
    (∀ (b b2 : Bus) (a v : Nat), b.write a v = some b2 → ¬(a = 0xFF50 ∧ v = 1) →
      b2.boot_rom_active = b.boot_rom_active) := by
  refine ⟨by decide, by decide, by decide, by decide, ?_, ?_, ?_⟩
  · intro b hio
    obtain ⟨b2, hw, hb, hc⟩ := Bus.write_ff50_one b hio
    refine ⟨b2, hw, hb, fun a ha => ?_⟩
    rw [Bus.read_cart_when_inactive b2 a hb (by omega), hc]
  · intro b b2 a v h hb
    rw [Bus.write_boot_rom_active b b2 a v h]
    split
    · rfl
    · exact hb
  · intro b b2 a v h h50
    rw [Bus.write_boot_rom_active b b2 a v h, if_neg h50]

theorem C1_ff50_disables_bootrom_overlay_witness :
    ∃ b2, (Bus.new_from_vecs [0x12] [0x34]).write 0xFF50 1 = some b2 ∧
      b2.boot_rom_active = false ∧
      ∀ a, a < 0x100 → b2.read a =
        ((Bus.new_from_vecs [0x12] [0x34]).cartridge.rom_banks.get? 0).bind fun bank =>
          bank.read a :=
  C1_ff50_disables_bootrom_overlay.2.2.2.2.1 (Bus.new_from_vecs [0x12] [0x34]) rfl

/-- C4 (counterexample): the claim says every address in
0xC000..0xDFFF is routed to work RAM without faulting, but the
dispatch sends only 0xC000..0xCFFF to the single 0x1000-byte work-RAM
bank; at 0xD000 both read and write fault. -/
theorem C4_work_ram_fault_counterexample :
    (Bus.new_from_vecs [] []).read 0xD000 = none ∧
    ((Bus.new_from_vecs [] []).write 0xD000 0x11).isSome = false := by
  decide

/-- C4 (amended): for 0xC000 ≤ A < 0xD000 a write is routed to the
4 KiB work RAM and reads back; for 0xD000 ≤ A < 0xE000 both read and
write fault. -/
theorem C4_work_ram_range_amended :
    (∀ (b : Bus) (A v : Nat), b.WFRam → 0xC000 ≤ A → A < 0xD000 →
      ∃ b2, b.write A v = some b2 ∧ (v < 256 → b2.read A = some v)) ∧
    (∀ (b : Bus) (A v : Nat), 0xD000 ≤ A → A < 0xE000 →
      b.read A = none ∧ (b.write A v).isSome = false) := by
  constructor
  · intro b A v hWF h1 h2
    obtain ⟨b2, hw, -, -, -, -, -, hr, -⟩ :=
      Bus.write_writable b A v hWF (Or.inr (Or.inl ⟨h1, h2⟩))
    exact ⟨b2, hw, fun hv => by rw [hr, Nat.mod_eq_of_lt hv]⟩
  · intro b A v h1 h2
    constructor
    · unfold Bus.read
      rw [if_neg (by rintro ⟨-, h⟩; omega), if_neg (by omega), if_neg (by omega),
        if_neg (by omega), if_neg (by omega), if_neg (by omega),
        if_neg (by rintro ⟨h, -⟩; omega), if_neg (by rintro ⟨h, -⟩; omega)]
    · unfold Bus.write
      rw [if_neg (by rintro ⟨h, -⟩; omega)]
      unfold Bus.write_dispatch
      rw [if_neg (by rintro ⟨-, h⟩; omega), if_neg (by omega), if_neg (by omega),
        if_neg (by omega), if_neg (by omega), if_neg (by omega),
        if_neg (by rintro ⟨h, -⟩; omega), if_neg (by rintro ⟨h, -⟩; omega)]
      rfl

theorem C4_work_ram_range_amended_witness :
    ∃ b2, (Bus.new_from_vecs [] []).write 0xC012 0xFF = some b2 ∧
      (0xFF < 256 → b2.read 0xC012 = some 0xFF) :=
  C4_work_ram_range_amended.1 (Bus.new_from_vecs [] []) 0xC012 0xFF
    (Bus.new_from_vecs_WFRam [] []) (by decide) (by decide)

/-- C5 (counterexample): `AFRegister::write` stores the low byte into
the flag register verbatim, so writing 0x000F leaves the low nibble set
and `read` does not return `v &&& 0xFFF0`. -/
theorem C5_af_low_nibble_counterexample :
    ((AFRegister.new).write 0x000F).flags.bits = 0x0F ∧
    ¬(((AFRegister.new).write 0x000F).read = 0x000F &&& 0xFFF0) := by
  decide

/-- The bus and CPU of the repository's own `pop_af` test: program
`[0xF1]`, SP = 0xCFFE, bytes 0x12/0x34 on the stack. -/
def popAFBus : Bus :=
  (((Bus.new_from_vecs [0xF1] []).write 0xCFFF 0x34).bind fun b =>
    b.write 0xCFFE 0x12).getD (Bus.new_from_vecs [0xF1] [])

def popAFCPU : CPU := { CPU.new popAFBus with stack_pointer := ⟨0xCFFE⟩ }

/-- C5 (amended): every write path into AF stores the flag byte
verbatim — `write v; read` returns `v` itself (not `v &&& 0xFFF0`),
`write_lower` keeps all eight bits, and `POP AF` (opcode 0xF1) loads
the popped low byte into the flags unmasked, as the repository's own
`pop_af` test asserts (`AF.read() == 0x1234`). -/
theorem C5_af_write_verbatim :
    (∀ (r : AFRegister) (v : Nat), v < 65536 →
      (r.write v).read = v ∧ (r.write v).flags.bits = v % 256) ∧
    (∀ (r : AFRegister) (v : Nat), (r.write_lower v).flags.bits = v % 256) ∧
    (stepApplied popAFCPU).reg_af.read = 0x1234 ∧
    (popAFCPU.step).isSome = true := by
  refine ⟨?_, fun r v => rfl, by decide, by decide⟩
  intro r v hv
  refine ⟨?_, rfl⟩
  unfold AFRegister.write AFRegister.read
  simp only [Nat.shiftRight_eq_div_pow, Nat.shiftLeft_eq]
  omega

theorem C5_af_write_verbatim_witness :
    ((AFRegister.new).write 0x1234).read = 0x1234 ∧
    ((AFRegister.new).write 0x1234).flags.bits = 0x1234 % 256 :=
  C5_af_write_verbatim.1 AFRegister.new 0x1234 (by decide)

/-- The CPU of the claim's failing input for C7: program `[0xAF]`
(XOR A) with A = 0x4F and the carry flag set before the instruction. -/
def xorCPU : CPU := { CPU.new (Bus.new_from_vecs [0xAF] []) with reg_af := ⟨0x4F, ⟨0x10⟩⟩ }

/-- C7 (code bug): XOR A only inserts Z (`flags.insert(Flags::Z)`); it
never clears N, H or C, although the instruction's own `flags_changed`
annotation is "Z000".  Starting with the carry flag set, the flag byte
after the step is 0x90 (Z and C), not 0x80. -/
theorem C7_xor_a_keeps_old_flags :
    (xorCPU.step).isSome = true ∧
    (stepApplied xorCPU).reg_af.a = 0 ∧
    (stepApplied xorCPU).program_counter.read = 1 ∧
    (stepApplied xorCPU).cycle_count = 4 ∧
    (stepApplied xorCPU).reg_af.flags.bits = 0x90 := by
  decide

/-- The CPU of the claim's failing input for C8: program `[0xCB, 0x17]`
with A = 0x80 and the carry flag set. -/
def cb17CPU : CPU := { CPU.new (Bus.new_from_vecs [0xCB, 0x17] []) with reg_af := ⟨0x80, ⟨0x10⟩⟩ }

/-- C8 (code bug): the CB 0x17 table row, whose mnemonic is "RL A",
instantiates the rotate macro with `read_lower`/`write_lower` on AF, so
it rotates the flag byte and leaves the accumulator untouched: from
A = 0x80, C = 1 the step keeps A = 0x80 (the claim requires A = 0x01
with the carry set) and turns the flag byte into 0x21. -/
theorem C8_cb17_rotates_flag_byte :
    (cb17CPU.step).isSome = true ∧
    (stepApplied cb17CPU).cycle_count = 8 ∧
    (stepApplied cb17CPU).program_counter.read = 2 ∧
    (stepApplied cb17CPU).reg_af.a = 0x80 ∧
    (stepApplied cb17CPU).reg_af.flags.bits = 0x21 := by
  decide

/-- C10: a CPU freshly constructed over a freshly constructed bus has
AF = BC = DE = HL = SP = PC = 0 (all flags clear), a zero cycle
counter, debug off, interrupts enabled and the boot-ROM overlay active,
and its first fetch reads boot-ROM address 0. -/
theorem C10_fresh_cpu_state (bd cd : List Nat) :
    (CPU.new (Bus.new_from_vecs bd cd)).reg_af.read = 0 ∧
    (CPU.new (Bus.new_from_vecs bd cd)).reg_af.flags.bits = 0 ∧
    (CPU.new (Bus.new_from_vecs bd cd)).reg_bc.read = 0 ∧
    (CPU.new (Bus.new_from_vecs bd cd)).reg_de.read = 0 ∧
    (CPU.new (Bus.new_from_vecs bd cd)).reg_hl.read = 0 ∧
    (CPU.new (Bus.new_from_vecs bd cd)).stack_pointer.read = 0 ∧
    (CPU.new (Bus.new_from_vecs bd cd)).program_counter.read = 0 ∧
    (CPU.new (Bus.new_from_vecs bd cd)).cycle_count = 0 ∧
    (CPU.new (Bus.new_from_vecs bd cd)).debug = false ∧
    (CPU.new (Bus.new_from_vecs bd cd)).interrupts_enabled = true ∧
    (CPU.new (Bus.new_from_vecs bd cd)).bus.boot_rom_active = true ∧
    (CPU.new (Bus.new_from_vecs bd cd)).bus.read
        (CPU.new (Bus.new_from_vecs bd cd)).program_counter.read =
      (CPU.new (Bus.new_from_vecs bd cd)).bus.boot_rom.read 0 := by
  refine ⟨rfl, rfl, rfl, rfl, rfl, rfl, rfl, rfl, rfl, rfl, rfl, ?_⟩
  show (Bus.new_from_vecs bd cd).read 0 = (Bus.new_from_vecs bd cd).boot_rom.read 0
  unfold Bus.read
  rw [if_pos ⟨rfl, by omega⟩]

/-- The CPU of the C9 counterexample: program `[0xE9, 0x55]` with
HL = 0x0001, so the byte in memory at HL is 0x55 while HL itself is 1. -/
def jpHLCPU : CPU := { CPU.new (Bus.new_from_vecs [0xE9, 0x55] []) with reg_hl := ⟨0x0001⟩ }

/-- C9 (counterexample): executing 0xE9 sets PC to the byte fetched
from memory at HL (0x55), not to HL itself (0x0001); the repository's
own `jp_hl` test asserts this fetching behaviour. -/
theorem C9_jp_hl_counterexample :
    (jpHLCPU.step).isSome = true ∧
    (stepApplied jpHLCPU).cycle_count = 4 ∧
    jpHLCPU.reg_hl.read = 0x0001 ∧
    (stepApplied jpHLCPU).program_counter.read = 0x55 ∧
    ¬((stepApplied jpHLCPU).program_counter.read = jpHLCPU.reg_hl.read) := by
  decide

theorem instructionFor_0xE9 : instructionFor INSTRUCTIONS_NOCB 0xE9 = .jp_hl := by rfl

/-- C9 (amended): whenever the next opcode byte is 0xE9 and the bus
holds byte m at address HL, the step succeeds, charges exactly 4
cycles, and sets PC to m (the fetched byte, zero-extended). -/
theorem C9_jp_hl_amended (c : CPU) (m : Nat)
    (hop : c.bus.read c.program_counter.read = some 0xE9)
    (hm : c.bus.read c.reg_hl.read = some m) (hmb : m < 256) :
    ∃ c2, c.step = some c2 ∧ c2.cycle_count = c.cycle_count + 4 ∧
      c2.program_counter.read = m := by
  unfold CPU.step CPU.run_op CPU.pop_u8_from_pc
  dsimp only
  rw [hop]
  simp only [Option.map_some', Option.some_bind]
  rw [instructionFor_0xE9]
  unfold CPU.execInstr CPU.execBase CPU.charge
  dsimp only
  rw [hm]
  simp only [Option.map_some']
  refine ⟨_, rfl, rfl, ?_⟩
  show (c.program_counter.inc.write m).read = m
  unfold Register16bit.write Register16bit.read
  exact Nat.mod_eq_of_lt (by omega)

theorem C9_jp_hl_amended_witness :
    ∃ c2, jpHLCPU.step = some c2 ∧ c2.cycle_count = jpHLCPU.cycle_count + 4 ∧
      c2.program_counter.read = 0x55 :=
  C9_jp_hl_amended jpHLCPU 0x55 (by decide) (by decide) (by decide)

theorem CPU.push_u8_spec (c : CPU) (x : Nat) (b2 : Bus)
    (hw : c.bus.write ((c.stack_pointer.value + 0xFFFF) % 65536) x = some b2) :
    c.push_u8_to_stack x =
      some { c with stack_pointer := ⟨(c.stack_pointer.value + 0xFFFF) % 65536⟩, bus := b2 } := by
  unfold CPU.push_u8_to_stack Register16bit.overflowing_add Register16bit.read
  dsimp only
  rw [hw]
  rfl

theorem CPU.pop_u8_spec (c : CPU) (x : Nat) (hr : c.bus.read c.stack_pointer.value = some x) :
    c.pop_u8_from_stack =
      some (x, { c with stack_pointer := ⟨(c.stack_pointer.value + 1) % 65536⟩ }) := by
  unfold CPU.pop_u8_from_stack Register16bit.overflowing_add Register16bit.read
  rw [hr]
  rfl

theorem bytes_reassemble (v : Nat) (hv : v < 65536) :
    (((v >>> 8) % 256) <<< 8) ||| (v % 256) = v := by
  rw [Nat.shiftRight_eq_div_pow]
  rw [Nat.mod_eq_of_lt (show v / 2 ^ 8 < 256 by omega)]
  rw [Nat.shiftLeft_eq]
  rw [show v / 2 ^ 8 * 2 ^ 8 = 2 ^ 8 * (v / 2 ^ 8) by ring]
  rw [← Nat.mul_add_lt_is_or (show v % 256 < 2 ^ 8 by omega)]
  omega

theorem CPU.push_u16_spec (c : CPU) (v : Nat) (b1 b2 : Bus)
    (hw1 : c.bus.write ((c.stack_pointer.value + 0xFFFF) % 65536) (v % 256) = some b1)
    (hw2 : b1.write (((c.stack_pointer.value + 0xFFFF) % 65536 + 0xFFFF) % 65536)
      ((v >>> 8) % 256) = some b2) :
    c.push_u16_to_stack v =
      some { c with
        stack_pointer := ⟨((c.stack_pointer.value + 0xFFFF) % 65536 + 0xFFFF) % 65536⟩,
        bus := b2 } := by
  unfold CPU.push_u16_to_stack
  rw [CPU.push_u8_spec c (v % 256) b1 hw1]
  simp only [Option.some_bind]
  rw [CPU.push_u8_spec
    { c with stack_pointer := ⟨(c.stack_pointer.value + 0xFFFF) % 65536⟩, bus := b1 }
    ((v >>> 8) % 256) b2 hw2]

theorem CPU.pop_u16_spec (c : CPU) (hi lo : Nat)
    (hr1 : c.bus.read c.stack_pointer.value = some hi)
    (hr2 : c.bus.read ((c.stack_pointer.value + 1) % 65536) = some lo) :
    c.pop_u16_from_stack =
      some ((hi <<< 8) ||| lo,
        { c with stack_pointer := ⟨((c.stack_pointer.value + 1) % 65536 + 1) % 65536⟩ }) := by
  unfold CPU.pop_u16_from_stack
  rw [CPU.pop_u8_spec c hi hr1]
  simp only [Option.some_bind]
  rw [CPU.pop_u8_spec
    { c with stack_pointer := ⟨(c.stack_pointer.value + 1) % 65536⟩ } lo hr2]
  rfl

/-- The CPU of the spec's stack-order scenario: program
`[0xCD, 0x34, 0x12]` (CALL 0x1234) with SP = 0xD000. -/
def callCPU : CPU := { CPU.new (Bus.new_from_vecs [0xCD, 0x34, 0x12] []) with stack_pointer := ⟨0xD000⟩ }

/-- C6: `push_u16` decrements SP by 2 (wrapping), storing the low byte
at the higher address (SP-1) and the high byte at the lower address
(SP-2); `pop_u16` takes its first popped byte as the high byte, so for
any 16-bit v pushed with SP-1 and SP-2 in writable RAM, the pop returns
v and restores SP.  The CALL scenario: `[0xCD, 0x34, 0x12]` with
SP = 0xD000 ends with PC = 0x1234, SP = 0xCFFE, 0x03 at 0xCFFF, 0x00
at 0xCFFE and cycle_count = 24. -/
theorem C6_stack_roundtrip :
    (∀ (c : CPU) (v : Nat), v < 65536 → c.stack_pointer.read < 65536 → c.bus.WFRam →
      WritableRAMAddr ((c.stack_pointer.read + 0xFFFF) % 65536) →
      WritableRAMAddr (((c.stack_pointer.read + 0xFFFF) % 65536 + 0xFFFF) % 65536) →
      ∃ c1, c.push_u16_to_stack v = some c1 ∧
        c1.stack_pointer.read = ((c.stack_pointer.read + 0xFFFF) % 65536 + 0xFFFF) % 65536 ∧
        c1.bus.read ((c.stack_pointer.read + 0xFFFF) % 65536) = some (v % 256) ∧
        c1.bus.read (((c.stack_pointer.read + 0xFFFF) % 65536 + 0xFFFF) % 65536) =
          some ((v >>> 8) % 256) ∧
        ∃ c2, c1.pop_u16_from_stack = some (v, c2) ∧
          c2.stack_pointer.read = c.stack_pointer.read) ∧
    (callCPU.step).isSome = true ∧
    (stepApplied callCPU).program_counter.read = 0x1234 ∧
    (stepApplied callCPU).stack_pointer.read = 0xCFFE ∧
    (stepApplied callCPU).bus.read 0xCFFF = some 0x03 ∧
    (stepApplied callCPU).bus.read 0xCFFE = some 0x00 ∧
    (stepApplied callCPU).cycle_count = 24 := by
  refine ⟨?_, by decide, by decide, by decide, by decide, by decide, by decide⟩
  intro c v hv hs hWF h1 h2
  simp only [Register16bit.read] at hs h1 h2 ⊢
  have e8 : (v >>> 8) % 256 % 256 = (v >>> 8) % 256 := by omega
  have e0 : v % 256 % 256 = v % 256 := by omega
  obtain ⟨b1, hw1, hWF1, -, -, -, -, hr1, hfr1⟩ :=
    Bus.write_writable c.bus ((c.stack_pointer.value + 0xFFFF) % 65536) (v % 256) hWF h1
  obtain ⟨b2, hw2, hWF2, -, -, -, -, hr2, hfr2⟩ :=
    Bus.write_writable b1 (((c.stack_pointer.value + 0xFFFF) % 65536 + 0xFFFF) % 65536)
      ((v >>> 8) % 256) hWF1 h2
  have hane : ¬(((c.stack_pointer.value + 0xFFFF) % 65536) =
      ((c.stack_pointer.value + 0xFFFF) % 65536 + 0xFFFF) % 65536) := by
    omega
  have hpush := CPU.push_u16_spec c v b1 b2 hw1 hw2
  have hlow : b2.read ((c.stack_pointer.value + 0xFFFF) % 65536) = some (v % 256 % 256) := by
    rw [hfr2 _ h1 hane, hr1]
  refine ⟨_, hpush, rfl, ?_, ?_, ?_⟩
  · show b2.read ((c.stack_pointer.value + 0xFFFF) % 65536) = some (v % 256)
    rw [hlow, e0]
  · show b2.read (((c.stack_pointer.value + 0xFFFF) % 65536 + 0xFFFF) % 65536) =
      some ((v >>> 8) % 256)
    rw [hr2, e8]
  · have haddr : ((((c.stack_pointer.value + 0xFFFF) % 65536 + 0xFFFF) % 65536) + 1) % 65536
        = (c.stack_pointer.value + 0xFFFF) % 65536 := by
      omega
    have hpop := CPU.pop_u16_spec
      { c with
        stack_pointer := ⟨((c.stack_pointer.value + 0xFFFF) % 65536 + 0xFFFF) % 65536⟩,
        bus := b2 } ((v >>> 8) % 256 % 256) (v % 256 % 256) hr2
      (by dsimp only; rw [haddr]; exact hlow)
    refine ⟨{ c with
        stack_pointer :=
          ⟨((((c.stack_pointer.value + 0xFFFF) % 65536 + 0xFFFF) % 65536 + 1) % 65536 + 1) % 65536⟩,
        bus := b2 }, ?_, ?_⟩
    · rw [hpop]
      simp only [Option.some.injEq, Prod.mk.injEq]
      refine ⟨?_, trivial⟩
      rw [e8, e0]
      exact bytes_reassemble v hv
    · show ((((((c.stack_pointer.value + 0xFFFF) % 65536 + 0xFFFF) % 65536) + 1) % 65536) + 1) % 65536 = c.stack_pointer.value
      omega

theorem C6_stack_roundtrip_witness :
    ∃ c1, callCPU.push_u16_to_stack 0x1234 = some c1 ∧
      c1.stack_pointer.read = ((callCPU.stack_pointer.read + 0xFFFF) % 65536 + 0xFFFF) % 65536 ∧
      c1.bus.read ((callCPU.stack_pointer.read + 0xFFFF) % 65536) = some (0x1234 % 256) ∧
      c1.bus.read (((callCPU.stack_pointer.read + 0xFFFF) % 65536 + 0xFFFF) % 65536) =
        some ((0x1234 >>> 8) % 256) ∧
      ∃ c2, c1.pop_u16_from_stack = some (0x1234, c2) ∧
        c2.stack_pointer.read = callCPU.stack_pointer.read :=
  C6_stack_roundtrip.1 callCPU 0x1234 (by decide) (by decide)
    (Bus.new_from_vecs_WFRam [0xCD, 0x34, 0x12] [])
    (by unfold WritableRAMAddr; decide) (by unfold WritableRAMAddr; decide)

/-! ## Cycle accounting -/

theorem PPU.cycle_cycle_count (p : PPU) : p.cycle.cycle_count = p.cycle_count + 1 := by
  unfold PPU.cycle
  dsimp only
  split_ifs <;> rfl

theorem Bus.cycleN_ppu_count (n : Nat) (b : Bus) :
    (Bus.cycleN n b).ppu.cycle_count = b.ppu.cycle_count + n := by
  induction n generalizing b with
  | zero => rfl
  | succ n ih =>
    show (Bus.cycleN n b.cycle).ppu.cycle_count = b.ppu.cycle_count + (n + 1)
    rw [ih]
    show b.ppu.cycle.cycle_count + n = b.ppu.cycle_count + (n + 1)
    rw [PPU.cycle_cycle_count]
    omega

@[simp] theorem CPU.charge_cycle_count (c : CPU) (n : Nat) : (c.charge n).cycle_count = c.cycle_count + n := rfl

@[simp] theorem CPU.charge_bus (c : CPU) (n : Nat) : (c.charge n).bus = c.bus := rfl

@[simp] theorem CPU.writeR8_cycle_count (c : CPU) (l : R8Loc) (v : Nat) :
    (c.writeR8 l v).cycle_count = c.cycle_count := by
  cases l with
  | bc s => cases s <;> rfl
  | de s => cases s <;> rfl
  | hl s => cases s <;> rfl
  | afHigher => rfl
  | afLower => rfl

@[simp] theorem CPU.writeR8_bus (c : CPU) (l : R8Loc) (v : Nat) : (c.writeR8 l v).bus = c.bus := by
  cases l with
  | bc s => cases s <;> rfl
  | de s => cases s <;> rfl
  | hl s => cases s <;> rfl
  | afHigher => rfl
  | afLower => rfl

@[simp] theorem CPU.writeReg16_cycle_count (c : CPU) (r : Reg16) (v : Nat) :
    (c.writeReg16 r v).cycle_count = c.cycle_count := by cases r <;> rfl

@[simp] theorem CPU.writeReg16_bus (c : CPU) (r : Reg16) (v : Nat) : (c.writeReg16 r v).bus = c.bus := by
  cases r <;> rfl

@[simp] theorem CPU.addReg16_cycle_count (c : CPU) (r : Reg16) (v : Nat) :
    (c.addReg16 r v).cycle_count = c.cycle_count := by cases r <;> rfl

@[simp] theorem CPU.addReg16_bus (c : CPU) (r : Reg16) (v : Nat) : (c.addReg16 r v).bus = c.bus := by
  cases r <;> rfl

@[simp] theorem CPU.writePushReg_cycle_count (c : CPU) (r : PushReg) (v : Nat) :
    (c.writePushReg r v).cycle_count = c.cycle_count := by cases r <;> rfl

@[simp] theorem CPU.writePushReg_bus (c : CPU) (r : PushReg) (v : Nat) :
    (c.writePushReg r v).bus = c.bus := by cases r <;> rfl

@[simp] theorem CPU.flagsSet_cycle_count (c : CPU) (m : Nat) (v : Bool) :
    (c.flagsSet m v).cycle_count = c.cycle_count := rfl

@[simp] theorem CPU.flagsSet_bus (c : CPU) (m : Nat) (v : Bool) : (c.flagsSet m v).bus = c.bus := rfl

@[simp] theorem CPU.flagsIns_cycle_count (c : CPU) (m : Nat) : (c.flagsIns m).cycle_count = c.cycle_count := rfl

@[simp] theorem CPU.flagsIns_bus (c : CPU) (m : Nat) : (c.flagsIns m).bus = c.bus := rfl

@[simp] theorem CPU.flagsRem_cycle_count (c : CPU) (m : Nat) : (c.flagsRem m).cycle_count = c.cycle_count := rfl

@[simp] theorem CPU.flagsRem_bus (c : CPU) (m : Nat) : (c.flagsRem m).bus = c.bus := rfl

@[simp] theorem CPU.flagsClear_cycle_count (c : CPU) : (c.flagsClear).cycle_count = c.cycle_count := rfl

@[simp] theorem CPU.flagsClear_bus (c : CPU) : (c.flagsClear).bus = c.bus := rfl

@[simp] theorem CPU.flags_add_cycle_count (c : CPU) (v : Nat) :
    (c.set_cpu_flags_for_add v).cycle_count = c.cycle_count := rfl

@[simp] theorem CPU.flags_add_bus (c : CPU) (v : Nat) : (c.set_cpu_flags_for_add v).bus = c.bus := rfl

@[simp] theorem CPU.flags_sub_cycle_count (c : CPU) (v : Nat) :
    (c.set_cpu_flags_for_sub_or_cp v).cycle_count = c.cycle_count := rfl

@[simp] theorem CPU.flags_sub_bus (c : CPU) (v : Nat) : (c.set_cpu_flags_for_sub_or_cp v).bus = c.bus := rfl

theorem Bus.write_ppu_count (b b2 : Bus) (a v : Nat) (h : b.write a v = some b2) :
    b2.ppu.cycle_count = b.ppu.cycle_count := by
  unfold Bus.write at h
  by_cases h50 : a = 0xFF50 ∧ v = 1
  · rw [if_pos h50] at h
    exact (Bus.write_dispatch_fields _ _ _ _ h).2.2
  · rw [if_neg h50] at h
    exact (Bus.write_dispatch_fields _ _ _ _ h).2.2

theorem CPU.pop_u8_from_pc_eq (c c1 : CPU) (v : Nat) (h : c.pop_u8_from_pc = some (v, c1)) :
    c1.cycle_count = c.cycle_count ∧ c1.bus = c.bus := by
  unfold CPU.pop_u8_from_pc at h
  cases hr : c.bus.read c.program_counter.read with
  | none => rw [hr] at h; cases h
  | some x =>
    rw [hr] at h
    simp only [Option.map_some', Option.some.injEq, Prod.mk.injEq] at h
    obtain ⟨-, rfl⟩ := h
    exact ⟨rfl, rfl⟩

theorem CPU.pop_u16_from_pc_eq (c c1 : CPU) (v : Nat) (h : c.pop_u16_from_pc = some (v, c1)) :
    c1.cycle_count = c.cycle_count ∧ c1.bus = c.bus := by
  unfold CPU.pop_u16_from_pc at h
  cases h1 : c.pop_u8_from_pc with
  | none => rw [h1] at h; cases h
  | some p =>
    rw [h1] at h
    obtain ⟨lo, ca⟩ := p
    cases h2 : ca.pop_u8_from_pc with
    | none =>
      simp only [Option.some_bind, h2, Option.map_none'] at h
      exact Option.noConfusion h
    | some q =>
      obtain ⟨hi, cb⟩ := q
      simp only [Option.some_bind, h2, Option.map_some', Option.some.injEq, Prod.mk.injEq] at h
      obtain ⟨-, rfl⟩ := h
      obtain ⟨e1, e2⟩ := CPU.pop_u8_from_pc_eq _ _ _ h1
      obtain ⟨e3, e4⟩ := CPU.pop_u8_from_pc_eq _ _ _ h2
      exact ⟨e3.trans e1, e4.trans e2⟩

theorem CPU.push_u8_eq (c c1 : CPU) (x : Nat) (h : c.push_u8_to_stack x = some c1) :
    c1.cycle_count = c.cycle_count ∧ c1.bus.ppu.cycle_count = c.bus.ppu.cycle_count := by
  unfold CPU.push_u8_to_stack at h
  dsimp only at h
  cases hw : c.bus.write (c.stack_pointer.overflowing_add 0xFFFF).read x with
  | none => rw [hw] at h; cases h
  | some b2 =>
    rw [hw] at h
    simp only [Option.map_some', Option.some.injEq] at h
    subst h
    exact ⟨rfl, Bus.write_ppu_count _ _ _ _ hw⟩

theorem CPU.push_u16_eq (c c1 : CPU) (x : Nat) (h : c.push_u16_to_stack x = some c1) :
    c1.cycle_count = c.cycle_count ∧ c1.bus.ppu.cycle_count = c.bus.ppu.cycle_count := by
  unfold CPU.push_u16_to_stack at h
  cases h1 : c.push_u8_to_stack (x % 256) with
  | none => rw [h1] at h; cases h
  | some ca =>
    rw [h1] at h
    simp only [Option.some_bind] at h
    obtain ⟨e1, e2⟩ := CPU.push_u8_eq _ _ _ h1
    obtain ⟨e3, e4⟩ := CPU.push_u8_eq _ _ _ h
    exact ⟨e3.trans e1, e4.trans e2⟩

theorem CPU.pop_u8_from_stack_eq (c c1 : CPU) (v : Nat) (h : c.pop_u8_from_stack = some (v, c1)) :
    c1.cycle_count = c.cycle_count ∧ c1.bus = c.bus := by
  unfold CPU.pop_u8_from_stack at h
  cases hr : c.bus.read c.stack_pointer.read with
  | none => rw [hr] at h; cases h
  | some x =>
    rw [hr] at h
    simp only [Option.map_some', Option.some.injEq, Prod.mk.injEq] at h
    obtain ⟨-, rfl⟩ := h
    exact ⟨rfl, rfl⟩

theorem CPU.pop_u16_from_stack_eq (c c1 : CPU) (v : Nat) (h : c.pop_u16_from_stack = some (v, c1)) :
    c1.cycle_count = c.cycle_count ∧ c1.bus = c.bus := by
  unfold CPU.pop_u16_from_stack at h
  cases h1 : c.pop_u8_from_stack with
  | none => rw [h1] at h; cases h
  | some p =>
    rw [h1] at h
    obtain ⟨hi, ca⟩ := p
    cases h2 : ca.pop_u8_from_stack with
    | none =>
      simp only [Option.some_bind, h2, Option.map_none'] at h
      exact Option.noConfusion h
    | some q =>
      obtain ⟨lo, cb⟩ := q
      simp only [Option.some_bind, h2, Option.map_some', Option.some.injEq, Prod.mk.injEq] at h
      obtain ⟨-, rfl⟩ := h
      obtain ⟨e1, e2⟩ := CPU.pop_u8_from_stack_eq _ _ _ h1
      obtain ⟨e3, e4⟩ := CPU.pop_u8_from_stack_eq _ _ _ h2
      exact ⟨e3.trans e1, e4.trans e2⟩

/-- Every implemented instruction body (every non-prefix table row)
charges a strictly positive number of cycles and never touches the
PPU's cycle counter itself. -/
theorem CPU.execBase_good (i : InstrImpl) (c c' : CPU) (h : CPU.execBase i c = some c') :
    c.cycle_count < c'.cycle_count ∧ c'.bus.ppu.cycle_count = c.bus.ppu.cycle_count := by
  cases i with
  | notImplemented => exact Option.noConfusion h
  | cb => exact Option.noConfusion h
  | nop =>
    cases h
    exact ⟨by simp, rfl⟩
  | pushR16 r =>
    unfold CPU.execBase at h
    rw [Option.map_eq_some'] at h
    obtain ⟨c1, hp, rfl⟩ := h
    obtain ⟨e1, e2⟩ := CPU.push_u16_eq _ _ _ hp
    exact ⟨by simp [e1], by simp [e2]⟩
  | popR16 r =>
    unfold CPU.execBase at h
    rw [Option.map_eq_some'] at h
    obtain ⟨⟨v, c1⟩, hp, rfl⟩ := h
    obtain ⟨e1, e2⟩ := CPU.pop_u16_from_stack_eq _ _ _ hp
    exact ⟨by simp [e1], by simp [e2]⟩
  | inc_u8 l =>
    cases h
    exact ⟨by simp, by simp⟩
  | dec_u8 l =>
    cases h
    exact ⟨by simp, by simp⟩
  | inc_u16 r =>
    cases h
    exact ⟨by simp, by simp⟩
  | dec_u16 r =>
    cases h
    exact ⟨by simp, by simp⟩
  | ld_r8_imm l =>
    unfold CPU.execBase at h
    rw [Option.map_eq_some'] at h
    obtain ⟨⟨v, c1⟩, hp, rfl⟩ := h
    obtain ⟨e1, e2⟩ := CPU.pop_u8_from_pc_eq _ _ _ hp
    exact ⟨by simp [e1], by simp [e2]⟩
  | ld_r8_r8 dst src =>
    cases h
    exact ⟨by simp, by simp⟩
  | ld_r16_imm r =>
    unfold CPU.execBase at h
    dsimp only at h
    rw [Option.map_eq_some'] at h
    obtain ⟨⟨v, c1⟩, hp, rfl⟩ := h
    obtain ⟨e1, e2⟩ := CPU.pop_u16_from_pc_eq _ _ _ hp
    simp only [CPU.charge_cycle_count, CPU.charge_bus] at e1 e2
    exact ⟨by simp [e1]; try omega, by simp [e2]⟩
  | ld_r8_ptr dst ptr delta =>
    unfold CPU.execBase at h
    dsimp only at h
    rw [Option.map_eq_some'] at h
    obtain ⟨v, hr, rfl⟩ := h
    cases delta with
    | none => exact ⟨by simp, by simp⟩
    | some d => exact ⟨by simp, by simp⟩
  | ld_ptr_r8 ptr src delta =>
    unfold CPU.execBase at h
    dsimp only at h
    rw [Option.map_eq_some'] at h
    obtain ⟨b, hw, rfl⟩ := h
    have e := Bus.write_ppu_count _ _ _ _ hw
    cases delta with
    | none => exact ⟨by simp, by simp [e]⟩
    | some d => exact ⟨by simp, by simp [e]⟩
  | rl_regular l =>
    cases h
    exact ⟨by simp, by simp⟩
  | rl_fast l =>
    cases h
    exact ⟨by simp, by simp⟩
  | jr =>
    unfold CPU.execBase at h
    rw [Option.map_eq_some'] at h
    obtain ⟨⟨v, c1⟩, hp, rfl⟩ := h
    obtain ⟨e1, e2⟩ := CPU.pop_u8_from_pc_eq _ _ _ hp
    exact ⟨by simp [e1], by simp [e2]⟩
  | jr_cond mask expected =>
    unfold CPU.execBase at h
    rw [Option.map_eq_some'] at h
    obtain ⟨⟨v, c1⟩, hp, rfl⟩ := h
    obtain ⟨e1, e2⟩ := CPU.pop_u8_from_pc_eq _ _ _ hp
    dsimp only
    constructor
    · split <;> simp [e1]
    · split <;> simp [e2]
  | jp =>
    unfold CPU.execBase at h
    rw [Option.map_eq_some'] at h
    obtain ⟨⟨v, c1⟩, hp, rfl⟩ := h
    obtain ⟨e1, e2⟩ := CPU.pop_u16_from_pc_eq _ _ _ hp
    exact ⟨by simp [e1], by simp [e2]⟩
  | jp_cond mask expected =>
    unfold CPU.execBase at h
    rw [Option.map_eq_some'] at h
    obtain ⟨⟨v, c1⟩, hp, rfl⟩ := h
    obtain ⟨e1, e2⟩ := CPU.pop_u16_from_pc_eq _ _ _ hp
    dsimp only
    constructor
    · split <;> simp [e1]
    · split <;> simp [e2]
  | jp_hl =>
    unfold CPU.execBase at h
    dsimp only at h
    rw [Option.map_eq_some'] at h
    obtain ⟨v, hr, rfl⟩ := h
    exact ⟨by simp, by simp⟩
  | add_r8 l =>
    cases h
    exact ⟨by simp, by simp⟩
  | add_hl_ptr =>
    unfold CPU.execBase at h
    rw [Option.map_eq_some'] at h
    obtain ⟨v, hr, rfl⟩ := h
    exact ⟨by simp, by simp⟩
  | add_imm =>
    unfold CPU.execBase at h
    rw [Option.map_eq_some'] at h
    obtain ⟨⟨v, c1⟩, hp, rfl⟩ := h
    obtain ⟨e1, e2⟩ := CPU.pop_u8_from_pc_eq _ _ _ hp
    exact ⟨by simp [e1], by simp [e2]⟩
  | sub_r8 l =>
    cases h
    exact ⟨by simp, by simp⟩
  | sub_hl_ptr =>
    unfold CPU.execBase at h
    rw [Option.map_eq_some'] at h
    obtain ⟨v, hr, rfl⟩ := h
    exact ⟨by simp, by simp⟩
  | sub_imm =>
    unfold CPU.execBase at h
    rw [Option.map_eq_some'] at h
    obtain ⟨⟨v, c1⟩, hp, rfl⟩ := h
    obtain ⟨e1, e2⟩ := CPU.pop_u8_from_pc_eq _ _ _ hp
    exact ⟨by simp [e1], by simp [e2]⟩
  | cp_r8 l =>
    cases h
    exact ⟨by simp, by simp⟩
  | cp_hl_ptr =>
    unfold CPU.execBase at h
    rw [Option.map_eq_some'] at h
    obtain ⟨v, hr, rfl⟩ := h
    exact ⟨by simp, by simp⟩
  | cp_imm =>
    unfold CPU.execBase at h
    rw [Option.map_eq_some'] at h
    obtain ⟨⟨v, c1⟩, hp, rfl⟩ := h
    obtain ⟨e1, e2⟩ := CPU.pop_u8_from_pc_eq _ _ _ hp
    exact ⟨by simp [e1], by simp [e2]⟩
  | xor_a =>
    cases h
    exact ⟨by simp, by simp⟩
  | ret =>
    unfold CPU.execBase at h
    dsimp only at h
    rw [Option.map_eq_some'] at h
    obtain ⟨⟨v, c1⟩, hp, rfl⟩ := h
    obtain ⟨e1, e2⟩ := CPU.pop_u16_from_stack_eq _ _ _ hp
    simp only [CPU.charge_cycle_count, CPU.charge_bus] at e1 e2
    exact ⟨by simp [e1]; try omega, by simp [e2]⟩
  | call =>
    unfold CPU.execBase at h
    dsimp only at h
    rw [Option.bind_eq_some] at h
    obtain ⟨⟨npc, c1⟩, hp, h⟩ := h
    rw [Option.map_eq_some'] at h
    obtain ⟨c2, hpu, rfl⟩ := h
    obtain ⟨e1, e2⟩ := CPU.pop_u16_from_pc_eq _ _ _ hp
    obtain ⟨e3, e4⟩ := CPU.push_u16_eq _ _ _ hpu
    simp only [CPU.charge_cycle_count, CPU.charge_bus] at e1 e2
    constructor
    · simp [e3, e1]; try omega
    · simp only []
      show c2.bus.ppu.cycle_count = c.bus.ppu.cycle_count
      rw [e4, e2]
  | ldh_imm_a =>
    unfold CPU.execBase at h
    dsimp only at h
    rw [Option.bind_eq_some] at h
    obtain ⟨⟨v, c1⟩, hp, h⟩ := h
    rw [Option.map_eq_some'] at h
    obtain ⟨b, hw, rfl⟩ := h
    obtain ⟨e1, e2⟩ := CPU.pop_u8_from_pc_eq _ _ _ hp
    have e3 := Bus.write_ppu_count _ _ _ _ hw
    simp only [CPU.charge_cycle_count, CPU.charge_bus] at e1 e2
    constructor
    · simp [e1]; try omega
    · show b.ppu.cycle_count = c.bus.ppu.cycle_count
      rw [e3, e2]
  | ldh_c_a =>
    unfold CPU.execBase at h
    dsimp only at h
    rw [Option.map_eq_some'] at h
    obtain ⟨b, hw, rfl⟩ := h
    have e3 := Bus.write_ppu_count _ _ _ _ hw
    exact ⟨by simp, by simp [e3]⟩
  | ld_a16_a =>
    unfold CPU.execBase at h
    dsimp only at h
    rw [Option.bind_eq_some] at h
    obtain ⟨⟨v, c1⟩, hp, h⟩ := h
    rw [Option.map_eq_some'] at h
    obtain ⟨b, hw, rfl⟩ := h
    obtain ⟨e1, e2⟩ := CPU.pop_u16_from_pc_eq _ _ _ hp
    have e3 := Bus.write_ppu_count _ _ _ _ hw
    simp only [CPU.charge_cycle_count, CPU.charge_bus] at e1 e2
    constructor
    · simp [e1]; try omega
    · show b.ppu.cycle_count = c.bus.ppu.cycle_count
      rw [e3, e2]
  | ldh_a_imm =>
    unfold CPU.execBase at h
    dsimp only at h
    rw [Option.bind_eq_some] at h
    obtain ⟨⟨v, c1⟩, hp, h⟩ := h
    rw [Option.map_eq_some'] at h
    obtain ⟨m, hr, rfl⟩ := h
    obtain ⟨e1, e2⟩ := CPU.pop_u8_from_pc_eq _ _ _ hp
    simp only [CPU.charge_cycle_count, CPU.charge_bus] at e1 e2
    constructor
    · simp [e1]; try omega
    · simp [e2]
  | di =>
    cases h
    exact ⟨by simp, by simp⟩
  | ei =>
    cases h
    exact ⟨by simp, by simp⟩
  | bit7h =>
    cases h
    exact ⟨by simp, by simp⟩

theorem CPU.run_cb_op_good (c c' : CPU) (h : c.run_cb_op = some c') :
    c.cycle_count < c'.cycle_count ∧ c'.bus.ppu.cycle_count = c.bus.ppu.cycle_count := by
  unfold CPU.run_cb_op at h
  dsimp only at h
  rw [Option.bind_eq_some] at h
  obtain ⟨⟨op, c1⟩, hp, h⟩ := h
  dsimp only at h
  obtain ⟨e1, e2⟩ := CPU.pop_u8_from_pc_eq _ _ _ hp
  obtain ⟨g1, g2⟩ := CPU.execBase_good _ _ _ h
  dsimp only at e1 e2 g1 g2
  constructor
  · omega
  · rw [g2, e2]

theorem CPU.execInstr_good (i : InstrImpl) (c c' : CPU) (h : CPU.execInstr i c = some c') :
    c.cycle_count < c'.cycle_count ∧ c'.bus.ppu.cycle_count = c.bus.ppu.cycle_count := by
  cases i
  case cb => exact CPU.run_cb_op_good c c' h
  all_goals unfold CPU.execInstr at h
  all_goals exact CPU.execBase_good _ c c' h

/-- C2: every successful `step()` (the execution of an implemented
instruction, counting a CB-prefixed pair as one step) strictly
increases `cycle_count`, and the number of `bus.cycle()` invocations it
makes equals the amount it added to `cycle_count`.  Each `bus.cycle()`
increments the PPU's own cycle counter by exactly one and nothing else
touches that counter, so the PPU-counter delta counts the
`bus.cycle()` invocations. -/
theorem C2_step_cycle_accounting (c c2 : CPU) (h : c.step = some c2) :
    c.cycle_count < c2.cycle_count ∧
    c2.bus.ppu.cycle_count = c.bus.ppu.cycle_count + (c2.cycle_count - c.cycle_count) := by
  unfold CPU.step CPU.run_op at h
  dsimp only at h
  rw [Option.bind_eq_some] at h
  obtain ⟨⟨op, c1⟩, hp, h⟩ := h
  dsimp only at h
  rw [Option.map_eq_some'] at h
  obtain ⟨c3, hex, rfl⟩ := h
  obtain ⟨e1, e2⟩ := CPU.pop_u8_from_pc_eq _ _ _ hp
  obtain ⟨g1, g2⟩ := CPU.execInstr_good _ _ _ hex
  dsimp only at e1 e2 g1 g2
  have e2' : c1.bus.ppu.cycle_count = c.bus.ppu.cycle_count := by rw [e2]
  constructor
  · dsimp only
    omega
  · show (Bus.cycleN (c3.cycle_count - c1.cycle_count) c3.bus).ppu.cycle_count =
      c.bus.ppu.cycle_count + (c3.cycle_count - c.cycle_count)
    rw [Bus.cycleN_ppu_count]
    omega

def nopCPU : CPU := CPU.new (Bus.new_from_vecs [0x00] [])

theorem C2_step_cycle_accounting_witness :
    nopCPU.cycle_count < (stepApplied nopCPU).cycle_count ∧
    (stepApplied nopCPU).bus.ppu.cycle_count =
      nopCPU.bus.ppu.cycle_count + ((stepApplied nopCPU).cycle_count - nopCPU.cycle_count) :=
  C2_step_cycle_accounting nopCPU (stepApplied nopCPU) (by rfl)

/-! ## PPU timing -/

theorem PPU.cycleN_add (m n : Nat) (p : PPU) :
    PPU.cycleN (m + n) p = PPU.cycleN n (PPU.cycleN m p) := by
  induction m generalizing p with
  | zero => rw [Nat.zero_add]; rfl
  | succ m ih =>
    have e : m + 1 + n = (m + n) + 1 := by omega
    rw [e]
    show PPU.cycleN (m + n) p.cycle = _
    rw [ih p.cycle]
    rfl

theorem PPU.cycleN_succ_right (n : Nat) (p : PPU) :
    PPU.cycleN (n + 1) p = (PPU.cycleN n p).cycle := by
  rw [PPU.cycleN_add n 1 p]
  rfl

theorem PPU.oam_run (b k s i : Nat) (hi : i ≤ 80) :
    PPU.cycleN i ⟨b, k, .OAM, 0, 0, s⟩ =
      if i = 80 then ⟨b + 80, k, .PixelTransfer, 0, 80, s⟩
      else ⟨b + i, k, .OAM, i, i, s⟩ := by
  induction i with
  | zero => simp [PPU.cycleN]
  | succ i ih =>
    rw [PPU.cycleN_succ_right, ih (by omega), if_neg (by omega)]
    unfold PPU.cycle
    dsimp only [mode_duration]
    rw [if_neg (show ¬(i + 1 = 456) by omega)]
    dsimp only
    by_cases h80 : i + 1 = 80
    · rw [if_pos (show 0 < 80 ∧ 80 ≤ i + 1 by omega), if_pos h80]
      simp [next_mode]
      omega
    · rw [if_neg (by omega), if_neg h80]
      simp [Nat.add_assoc]

theorem PPU.pt_run (b k s i : Nat) (hi : i ≤ 172) :
    PPU.cycleN i ⟨b, k, .PixelTransfer, 0, 80, s⟩ =
      if i = 172 then ⟨b + 172, k, .HBlank, 0, 252, s⟩
      else ⟨b + i, k, .PixelTransfer, i, 80 + i, s⟩ := by
  induction i with
  | zero => simp [PPU.cycleN]
  | succ i ih =>
    rw [PPU.cycleN_succ_right, ih (by omega), if_neg (by omega)]
    unfold PPU.cycle
    dsimp only [mode_duration]
    rw [if_neg (show ¬(80 + i + 1 = 456) by omega)]
    dsimp only
    by_cases h : i + 1 = 172
    · rw [if_pos (show 0 < 172 ∧ 172 ≤ i + 1 by omega), if_pos h]
      simp [next_mode]
      omega
    · rw [if_neg (by omega), if_neg h]
      simp [Nat.add_assoc]

theorem PPU.hb_run (b k s i : Nat) (hi : i ≤ 204) (hk : k < 144) :
    PPU.cycleN i ⟨b, k, .HBlank, 0, 252, s⟩ =
      if i = 204 then
        (if k + 1 < 144 then ⟨b + 204, k + 1, .OAM, 0, 0, s⟩
         else ⟨b + 204, k + 1, .VBlank, 0, 0, s⟩)
      else ⟨b + i, k, .HBlank, i, 252 + i, s⟩ := by
  induction i with
  | zero => simp [PPU.cycleN]
  | succ i ih =>
    rw [PPU.cycleN_succ_right, ih (by omega), if_neg (by omega)]
    unfold PPU.cycle
    dsimp only [mode_duration]
    by_cases h : i + 1 = 204
    · rw [if_pos (show 252 + i + 1 = 456 by omega)]
      dsimp only
      rw [Nat.mod_eq_of_lt (show k + 1 < 256 by omega),
        if_neg (show ¬(144 + 10 ≤ k + 1) by omega)]
      rw [if_pos (show 0 < 204 ∧ 204 ≤ i + 1 by omega), if_pos h]
      by_cases hk1 : k + 1 < 144
      · rw [if_pos hk1]
        simp [next_mode, hk1]
        omega
      · rw [if_neg hk1]
        simp [next_mode, hk1]
        omega
    · rw [if_neg (show ¬(252 + i + 1 = 456) by omega)]
      dsimp only
      rw [if_neg (by omega), if_neg h]
      simp [Nat.add_assoc]

theorem PPU.vb_run (b s i : Nat) (hi : i ≤ 4560) :
    PPU.cycleN i ⟨b, 144, .VBlank, 0, 0, s⟩ =
      if i = 4560 then ⟨b + 4560, 0, .OAM, 0, 0, s⟩
      else ⟨b + i, 144 + i / 456, .VBlank, i, i % 456, s⟩ := by
  induction i with
  | zero => simp [PPU.cycleN]
  | succ i ih =>
    rw [PPU.cycleN_succ_right, ih (by omega), if_neg (by omega)]
    unfold PPU.cycle
    dsimp only [mode_duration]
    by_cases hwrap : i % 456 = 455
    · rw [if_pos (show i % 456 + 1 = 456 by omega)]
      dsimp only
      rw [Nat.mod_eq_of_lt (show 144 + i / 456 + 1 < 256 by omega)]
      by_cases hend : i + 1 = 4560
      · rw [if_pos (show 144 + 10 ≤ 144 + i / 456 + 1 by omega)]
        rw [if_pos (show 0 < 10 * (20 * 4 + 43 * 4 + 51 * 4) ∧
          10 * (20 * 4 + 43 * 4 + 51 * 4) ≤ i + 1 by omega), if_pos hend]
        simp [next_mode]
        omega
      · rw [if_neg (show ¬(144 + 10 ≤ 144 + i / 456 + 1) by omega)]
        rw [if_neg (show ¬(0 < 10 * (20 * 4 + 43 * 4 + 51 * 4) ∧
          10 * (20 * 4 + 43 * 4 + 51 * 4) ≤ i + 1) by omega), if_neg hend]
        simp only [PPU.mk.injEq]
        refine ⟨by omega, by omega, trivial, trivial, by omega, trivial⟩
    · rw [if_neg (show ¬(i % 456 + 1 = 456) by omega)]
      dsimp only
      rw [if_neg (show ¬(0 < 10 * (20 * 4 + 43 * 4 + 51 * 4) ∧
        10 * (20 * 4 + 43 * 4 + 51 * 4) ≤ i + 1) by omega),
        if_neg (show ¬(i + 1 = 4560) by omega)]
      simp only [PPU.mk.injEq]
      refine ⟨by omega, by omega, trivial, trivial, by omega, trivial⟩

theorem PPU.line_run (b k s : Nat) (hk : k < 144) :
    PPU.cycleN 456 ⟨b, k, .OAM, 0, 0, s⟩ =
      if k + 1 < 144 then ⟨b + 456, k + 1, .OAM, 0, 0, s⟩
      else ⟨b + 456, 144, .VBlank, 0, 0, s⟩ := by
  rw [show (456 : Nat) = 80 + 172 + 204 from rfl, PPU.cycleN_add, PPU.cycleN_add]
  rw [PPU.oam_run b k s 80 (by omega), if_pos rfl]
  rw [PPU.pt_run (b + 80) k s 172 (by omega), if_pos rfl]
  rw [show b + 80 + 172 = b + 252 by omega]
  rw [PPU.hb_run (b + 252) k s 204 (by omega) hk, if_pos rfl]
  split_ifs with hk1
  all_goals simp only [PPU.mk.injEq]
  all_goals and_intros
  all_goals first
    | trivial
    | omega

theorem PPU.frameStart (k : Nat) (hk : k ≤ 144) :
    PPU.cycleN (456 * k) PPU.new =
      if k < 144 then ⟨456 * k, k, .OAM, 0, 0, 0⟩
      else ⟨65664, 144, .VBlank, 0, 0, 0⟩ := by
  induction k with
  | zero => simp [PPU.cycleN, PPU.new]
  | succ k ih =>
    rw [show 456 * (k + 1) = 456 * k + 456 by ring, PPU.cycleN_add,
      ih (by omega), if_pos (show k < 144 by omega)]
    rw [PPU.line_run (456 * k) k 0 (by omega)]
    by_cases hk1 : k + 1 < 144
    · rw [if_pos hk1, if_pos hk1]
    · rw [if_neg hk1, if_neg (show ¬(k + 1 < 144) by omega)]
      all_goals simp only [PPU.mk.injEq]
      all_goals exact ⟨by omega, trivial, trivial, trivial, trivial, trivial⟩


theorem PPU.cycle_mode_advance (p : PPU) :
    ModeAdvanceOk p.current_mode p.cycle.current_mode := by
  unfold PPU.cycle
  cases hm : p.current_mode <;>
    simp only [ModeAdvanceOk, next_mode] <;>
    split_ifs <;>
    simp_all

theorem PPU.new_eq : PPU.new = ⟨0, 0, .OAM, 0, 0, 0⟩ := rfl

theorem PPU.mode_before_80 (i : Nat) (hi : i < 80) :
    (PPU.cycleN i PPU.new).current_mode = .OAM := by
  rw [PPU.new_eq, PPU.oam_run 0 0 0 i (by omega), if_neg (by omega)]

theorem PPU.state_at_80 :
    PPU.cycleN 80 PPU.new = ⟨80, 0, .PixelTransfer, 0, 80, 0⟩ := by
  rw [PPU.new_eq, PPU.oam_run 0 0 0 80 (by omega), if_pos rfl]

theorem PPU.mode_pt_range (j : Nat) (hj : j < 172) :
    (PPU.cycleN (80 + j) PPU.new).current_mode = .PixelTransfer := by
  rw [PPU.cycleN_add, PPU.state_at_80, PPU.pt_run 80 0 0 j (by omega),
    if_neg (by omega)]

theorem PPU.state_at_252 :
    PPU.cycleN 252 PPU.new = ⟨252, 0, .HBlank, 0, 252, 0⟩ := by
  rw [show (252 : Nat) = 80 + 172 from rfl, PPU.cycleN_add, PPU.state_at_80,
    PPU.pt_run 80 0 0 172 (by omega), if_pos rfl]

theorem PPU.line_before_456 (i : Nat) (hi : i < 456) :
    (PPU.cycleN i PPU.new).current_line = 0 := by
  rcases Nat.lt_or_ge i 81 with h | h
  · rw [PPU.new_eq, PPU.oam_run 0 0 0 i (by omega)]
    split_ifs <;> rfl
  · rcases Nat.lt_or_ge i 253 with h2 | h2
    · obtain ⟨j, rfl⟩ : ∃ j, i = 80 + j := ⟨i - 80, by omega⟩
      rw [PPU.cycleN_add, PPU.state_at_80, PPU.pt_run 80 0 0 j (by omega)]
      split_ifs <;> rfl
    · obtain ⟨j, rfl⟩ : ∃ j, i = 252 + j := ⟨i - 252, by omega⟩
      rw [PPU.cycleN_add, PPU.state_at_252,
        PPU.hb_run 252 0 0 j (by omega) (by omega), if_neg (by omega)]

theorem PPU.line_at_456 : (PPU.cycleN 456 PPU.new).current_line = 1 := by
  rw [show (456 : Nat) = 456 * 1 by norm_num, PPU.frameStart 1 (by omega),
    if_pos (by omega)]

theorem PPU.line_at_multiples (v : Nat) (hv : v ≤ 153) :
    (PPU.cycleN (456 * v) PPU.new).current_line = v := by
  rcases Nat.lt_or_ge v 145 with h | h
  · rw [PPU.frameStart v (by omega)]
    split_ifs with h1
    · rfl
    · dsimp only
      omega
  · obtain ⟨w, rfl⟩ : ∃ w, v = 144 + w := ⟨v - 144, by omega⟩
    rw [show 456 * (144 + w) = 456 * 144 + 456 * w by ring, PPU.cycleN_add,
      PPU.frameStart 144 (by omega), if_neg (by omega),
      PPU.vb_run 65664 0 (456 * w) (by omega), if_neg (by omega)]
    dsimp only
    omega

theorem PPU.mode_at_65663 : (PPU.cycleN 65663 PPU.new).current_mode = .HBlank := by
  rw [show (65663 : Nat) = 456 * 143 + (80 + (172 + 203)) by norm_num,
    PPU.cycleN_add, PPU.frameStart 143 (by omega), if_pos (by omega),
    PPU.cycleN_add, PPU.oam_run (456 * 143) 143 0 80 (by omega), if_pos rfl,
    PPU.cycleN_add, PPU.pt_run (456 * 143 + 80) 143 0 172 (by omega), if_pos rfl,
    PPU.hb_run (456 * 143 + 80 + 172) 143 0 203 (by omega) (by omega),
    if_neg (by omega)]

theorem PPU.mode_at_65664 : (PPU.cycleN 65664 PPU.new).current_mode = .VBlank := by
  rw [show (65664 : Nat) = 456 * 144 by norm_num, PPU.frameStart 144 (by omega),
    if_neg (by omega)]

theorem PPU.state_at_70224 :
    PPU.cycleN 70224 PPU.new = ⟨70224, 0, .OAM, 0, 0, 0⟩ := by
  rw [show (70224 : Nat) = 456 * 144 + 4560 by norm_num, PPU.cycleN_add,
    PPU.frameStart 144 (by omega), if_neg (by omega),
    PPU.vb_run 65664 0 4560 (by omega), if_pos rfl]

/-- C3: from a fresh PPU, the mode is OAM before cycle 80 and becomes
PixelTransfer at cycle 80, stays PixelTransfer until becoming HBlank at
cycle 252; the line counter stays 0 before cycle 456 and becomes 1 there;
LY passes through every value 0..153 (line k starts at cycle 456*k); the
mode becomes VBlank at cycle 65664 (still HBlank at 65663) and is back to
OAM with LY = 0 at cycle 70224; and every single step either keeps the
mode or advances it in the order OAM, PixelTransfer, HBlank, then OAM or
VBlank, and from VBlank back to OAM. -/
theorem C3_ppu_frame_timing :
    (∀ i, i < 80 → (PPU.cycleN i PPU.new).current_mode = .OAM) ∧
    (PPU.cycleN 80 PPU.new).current_mode = .PixelTransfer ∧
    (∀ j, j < 172 → (PPU.cycleN (80 + j) PPU.new).current_mode = .PixelTransfer) ∧
    (PPU.cycleN 252 PPU.new).current_mode = .HBlank ∧
    (∀ i, i < 456 → (PPU.cycleN i PPU.new).current_line = 0) ∧
    (PPU.cycleN 456 PPU.new).current_line = 1 ∧
    (∀ v, v ≤ 153 → (PPU.cycleN (456 * v) PPU.new).current_line = v) ∧
    (PPU.cycleN 65663 PPU.new).current_mode = .HBlank ∧
    (PPU.cycleN 65664 PPU.new).current_mode = .VBlank ∧
    (PPU.cycleN 70224 PPU.new).current_mode = .OAM ∧
    (PPU.cycleN 70224 PPU.new).current_line = 0 ∧
    (∀ i, ModeAdvanceOk (PPU.cycleN i PPU.new).current_mode
      (PPU.cycleN (i + 1) PPU.new).current_mode) := by
  refine ⟨PPU.mode_before_80, ?_, PPU.mode_pt_range, ?_, PPU.line_before_456,
    PPU.line_at_456, PPU.line_at_multiples, PPU.mode_at_65663, PPU.mode_at_65664,
    ?_, ?_, ?_⟩
  · rw [PPU.state_at_80]
  · rw [PPU.state_at_252]
  · rw [PPU.state_at_70224]
  · rw [PPU.state_at_70224]
  · intro i
    rw [PPU.cycleN_succ_right]
    exact PPU.cycle_mode_advance _

theorem C3_ppu_frame_timing_witness :
    (PPU.cycleN 79 PPU.new).current_mode = .OAM ∧
    (PPU.cycleN (456 * 153) PPU.new).current_line = 153 :=
  ⟨C3_ppu_frame_timing.1 79 (by decide),
   C3_ppu_frame_timing.2.2.2.2.2.2.1 153 (by decide)⟩
